import Mathlib

/-!
Verification of the AI-Interview-Trainer scoring, aggregation and history
logic.  The JavaScript source (src/js/aiService.js, the storage service, the
interview engine) is shallowly embedded: JS numbers become ℚ/ℤ/ℕ with
Math.round written out explicitly, strings become Lean String, stateful
localStorage access becomes explicit state passing on a list of records.
-/

/- ## JS string primitives -/

/-- Whitespace characters matched by the JS regex class \s (ASCII part;
the source only ever feeds ASCII through these paths). -/
def jsWsChar (c : Char) : Bool :=
  c == ' ' || c == '\t' || c == '\n' || c == '\r' || c.val == 11 || c.val == 12

/-- JS String.prototype.toLowerCase, on the ASCII range used by the source. -/
def jsToLower (s : String) : String :=
  String.mk (s.toList.map Char.toLower)

/-- Containment of one character list in another at any position. -/
def listContainsSub (needle : List Char) : List Char → Bool
  | [] => needle.isEmpty
  | c :: rest => needle.isPrefixOf (c :: rest) || listContainsSub needle rest

/-- JS hay.includes(needle): substring containment. -/
def jsIncludes (hay needle : String) : Bool :=
  listContainsSub needle.toList hay.toList

/-- Accumulator pass for jsSplitWs.  The Bool records whether the previous
character was part of a whitespace run (so a run yields one delimiter). -/
def splitWsGo : Bool → List Char → List Char → List (List Char)
  | _, [], acc => [acc.reverse]
  | lastWs, c :: rest, acc =>
    if jsWsChar c then
      if lastWs then splitWsGo true rest acc
      else acc.reverse :: splitWsGo true rest []
    else splitWsGo false rest (c :: acc)

/-- JS s.split(/\s+/): fields between whitespace runs; a leading or trailing
run contributes an empty field, and the empty string yields one empty field. -/
def jsSplitWs (s : String) : List String :=
  (splitWsGo false s.toList []).map (fun l => String.mk l)

/-- JS String.prototype.trim on a character list. -/
def jsTrimList (l : List Char) : List Char :=
  ((l.dropWhile jsWsChar).reverse.dropWhile jsWsChar).reverse

/-- JS String.prototype.trim. -/
def jsTrim (s : String) : String :=
  String.mk (jsTrimList s.toList)

/-- JS a || b on strings: the empty string is the only falsy string. -/
def jsOr (a b : String) : String :=
  if a = "" then b else a

/-- JS Math.round on a finite value: floor(x + 1/2). -/
def jsRound (x : ℚ) : ℤ := ⌊x + 1/2⌋

/- ## Answer Scorer (aiService.js) -/

/-- One per-role entry of AIService.initializeKnowledgeBase(). -/
structure RoleKB where
  keywords : List String
  concepts : List String
  explanations : List (String × String)
deriving Repr, DecidableEq

def dataScientistKB : RoleKB :=
  { keywords := ["python", "pandas", "numpy", "scikit-learn", "tensorflow", "statistics", "visualization"]
    concepts := ["data cleaning", "feature engineering", "model evaluation", "cross-validation", "hypothesis testing"]
    explanations :=
      [("statistics", "Statistical understanding is crucial for data interpretation and model validation."),
       ("machine learning", "Understanding ML algorithms and their trade-offs is fundamental."),
       ("python", "Python is the primary language for data science with rich ecosystem.")] }

def frontendKB : RoleKB :=
  { keywords := ["html", "css", "javascript", "react", "components", "state", "props"]
    concepts := ["virtual dom", "rendering", "performance", "accessibility", "responsive design"]
    explanations :=
      [("javascript", "JavaScript is the core language for frontend interactivity."),
       ("react", "React components should be reusable and maintainable."),
       ("css", "CSS requires understanding of layout, specificity, and responsive design.")] }

def backendKB : RoleKB :=
  { keywords := ["api", "database", "server", "node.js", "python", "java", "sql"]
    concepts := ["rest", "graphql", "orm", "scalability", "caching", "security"]
    explanations :=
      [("api", "APIs should be RESTful, versioned, and properly documented."),
       ("database", "Database choice depends on data structure and access patterns."),
       ("scalability", "Systems should scale horizontally with load balancing.")] }

def productManagerKB : RoleKB :=
  { keywords := ["product", "user", "market", "roadmap", "stakeholder", "metrics"]
    concepts := ["prioritization", "user research", "agile", "product strategy", "go-to-market"]
    explanations :=
      [("prioritization", "Features should be prioritized based on value vs effort."),
       ("user research", "Understanding user needs drives product success."),
       ("metrics", "Success should be measured with actionable metrics.")] }

/-- AIService.knowledgeBase as a partial lookup by role name. -/
def knowledgeBase (role : String) : Option RoleKB :=
  if role = "Data Scientist" then some dataScientistKB
  else if role = "Frontend Developer" then some frontendKB
  else if role = "Backend Developer" then some backendKB
  else if role = "Product Manager" then some productManagerKB
  else none

/-- JS this.knowledgeBase[role] || this.knowledgeBase['Data Scientist']. -/
def kbFor (role : String) : RoleKB :=
  (knowledgeBase role).getD dataScientistKB

/-- Indicator phrases of AIService.containsExamples. -/
def exampleIndicators : List String :=
  ["for example", "such as", "like when", "instance", "case study", "in practice"]

/-- AIService.containsExamples(answer). -/
def containsExamples (answer : String) : Bool :=
  exampleIndicators.any (fun i => jsIncludes (jsToLower answer) i)

/-- Indicator phrases of AIService.hasStructure. -/
def structureIndicators : List String :=
  ["first", "second", "finally", "in conclusion", "1.", "2.", "firstly", "secondly"]

/-- AIService.hasStructure(answer). -/
def hasStructure (answer : String) : Bool :=
  structureIndicators.any (fun i => jsIncludes (jsToLower answer) i)

/-- AIService.hasTechnicalTerms(answer, role). -/
def hasTechnicalTerms (answer role : String) : Bool :=
  (kbFor role).keywords.any (fun k => jsIncludes (jsToLower answer) (jsToLower k))

/-- Lookup in a JS object literal used as a table (no duplicate keys occur). -/
def assocLookup (l : List (String × String)) (k : String) : Option String :=
  (l.find? (fun p => p.1 == k)).map (fun p => p.2)

/-- AIService.getConceptExplanation(concept, role): per-role explanation with
a generic fallback template (JS || falls through on a missing key). -/
def getConceptExplanation (concept role : String) : String :=
  match assocLookup (kbFor role).explanations (jsToLower concept) with
  | some e => if e = "" then concept ++ " is an important concept for " ++ role ++ " role. Review fundamentals." else e
  | none => concept ++ " is an important concept for " ++ role ++ " role. Review fundamentals."

/-- Case-insensitive substring test used for concept coverage:
answerLower.includes(concept.toLowerCase()). -/
def conceptMentioned (answer concept : String) : Bool :=
  jsIncludes (jsToLower answer) (jsToLower concept)

/-- The coveredConcepts list accumulated by the forEach in
evaluateAnswerIntelligently. -/
def coveredConceptsOf (answer : String) (concepts : List String) : List String :=
  concepts.filter (fun c => conceptMentioned answer c)

/-- The result.missingConcepts list accumulated by the same forEach. -/
def missingConceptsOf (answer : String) (concepts : List String) : List String :=
  concepts.filter (fun c => !conceptMentioned answer c)

/-- JS answer.split(/\s+/).length. -/
def wordCountOf (answer : String) : ℕ :=
  (jsSplitWs answer).length

/-- The conceptScore local of evaluateAnswerIntelligently. -/
def conceptScoreOf (answer : String) (concepts : List String) : ℚ :=
  if concepts.length > 0 then
    ((coveredConceptsOf answer concepts).length : ℚ) / (concepts.length : ℚ) * 40
  else 30

/-- The depthScore local of evaluateAnswerIntelligently. -/
def depthScoreOf (answer : String) : ℚ :=
  min 20 ((wordCountOf answer : ℚ) / 15 * 10)

/-- The raw (uncapped, unrounded) sum of the five weighted sub-scores. -/
def totalRawScore (answer : String) (concepts : List String) (role : String) : ℚ :=
  conceptScoreOf answer concepts + depthScoreOf answer
    + (if containsExamples answer then (15 : ℚ) else 0)
    + (if hasStructure answer then (10 : ℚ) else 0)
    + (if hasTechnicalTerms answer role then (15 : ℚ) else 0)

/-- result.score = Math.min(100, Math.round(conceptScore + depthScore +
examplesScore + structureScore + technicalScore)). -/
def finalScore (answer : String) (concepts : List String) (role : String) : ℤ :=
  min 100 (jsRound (totalRawScore answer concepts role))

/-- Result record of AIService.evaluateAnswerIntelligently. -/
structure EvalResult where
  score : ℤ
  correctness : String
  strengths : List String
  weaknesses : List String
  missingConcepts : List String
  conceptCorrections : List String
  scoreReason : String
deriving Repr, DecidableEq

/-- The reasons list built for result.scoreReason. -/
def scoreReasons (answer : String) (concepts : List String) : List String :=
  (if (coveredConceptsOf answer concepts).length > 0 then
      ["Covered " ++ toString (coveredConceptsOf answer concepts).length ++ "/"
        ++ toString concepts.length ++ " key concepts"]
    else ["Missed all key concepts"])
  ++ (if containsExamples answer then ["Good use of examples"] else ["Missing concrete examples"])
  ++ (if wordCountOf answer < 30 then ["Answer too brief"]
      else if wordCountOf answer > 100 then ["Comprehensive detail"] else [])

/-- AIService.evaluateAnswerIntelligently(question, answer, expectedConcepts,
role).  The question argument is unused by the source body as well. -/
def evaluateAnswerIntelligently (_question answer : String)
    (expectedConcepts : List String) (role : String) : EvalResult :=
  let covered := coveredConceptsOf answer expectedConcepts
  let missing := missingConceptsOf answer expectedConcepts
  let wordCount := wordCountOf answer
  let hasEx := containsExamples answer
  let hasSt := hasStructure answer
  let score := finalScore answer expectedConcepts role
  let scoreReason :=
    "Score: " ++ toString score ++ "% - " ++ String.intercalate ", " (scoreReasons answer expectedConcepts)
  if 80 ≤ score then
    { score := score, correctness := "correct"
      strengths := ["Strong understanding demonstrated",
                    "Covered key concepts: " ++ String.intercalate ", " (covered.take 3)]
        ++ (if hasEx then ["Excellent use of examples"] else [])
        ++ (if hasSt then ["Well-structured response"] else [])
      weaknesses := [], missingConcepts := missing, conceptCorrections := []
      scoreReason := scoreReason }
  else if 50 ≤ score then
    { score := score, correctness := "partial"
      strengths := []
      weaknesses := ["Partial understanding - needs more depth"]
        ++ (if missing.length > 0 then ["Missing: " ++ String.intercalate ", " (missing.take 3)] else [])
        ++ (if !hasEx then ["Add concrete examples"] else [])
        ++ (if wordCount < 50 then ["Elaborate more"] else [])
      missingConcepts := missing, conceptCorrections := []
      scoreReason := scoreReason }
  else
    { score := score, correctness := "incorrect"
      strengths := []
      weaknesses := ["Significant gaps in understanding"]
      missingConcepts := missing
      conceptCorrections := missing.map (fun c => "Missing: " ++ c ++ " - " ++ getConceptExplanation c role)
      scoreReason := scoreReason }

/-- Correctness tier as the spec states it: score ≥ 80 correct, 50–79 partial,
otherwise incorrect.  Stated from the spec to compare with the code. -/
def specCorrectnessTier (s : ℤ) : String :=
  if 80 ≤ s then "correct" else if 50 ≤ s then "partial" else "incorrect"

/- ## Transcript Normalizer (AIService.cleanTranscript) -/

/-- JS word character class \w, ASCII. -/
def isWordChar (c : Char) : Bool :=
  c.isAlpha || c.isDigit || c == '_'

/-- The filler alternatives of the regex
\b(um|uh|ah|er|like|you know|sort of|kind of|actually|basically)\b, in
alternation order. -/
def fillerWords : List String :=
  ["um", "uh", "ah", "er", "like", "you know", "sort of", "kind of", "actually", "basically"]

/-- Case-insensitive prefix test for a filler alternative. -/
def ciIsPrefixOf (pat l : List Char) : Bool :=
  pat.isPrefixOf (l.map Char.toLower)

/-- Try to match one filler alternative at the head of l, honouring the \b
word boundaries of the regex (prevWord is whether the previous original
character was a word character).  Returns the matched length. -/
def findFillerAt (prevWord : Bool) (l : List Char) : Option ℕ :=
  if prevWord then none
  else fillerWords.findSome? (fun f =>
    let fl := f.toList
    if ciIsPrefixOf fl l &&
        (match l.drop fl.length with
         | [] => true
         | c :: _ => !isWordChar c) then
      some fl.length
    else none)

/-- Scan of the filler-removal replace; fuel is the remaining length (each
step consumes at least one character, so fuel = length always suffices). -/
def removeFillersGo : ℕ → Bool → List Char → List Char
  | 0, _, l => l
  | _, _, [] => []
  | fuel + 1, prevWord, c :: rest =>
    match findFillerAt prevWord (c :: rest) with
    | some n => removeFillersGo fuel true ((c :: rest).drop n)
    | none => c :: removeFillersGo fuel (isWordChar c) rest

/-- replace(/\s+/g, ' '): collapse each whitespace run to one space. -/
def collapseWsGo : Bool → List Char → List Char
  | _, [] => []
  | prevWs, c :: rest =>
    if jsWsChar c then
      if prevWs then collapseWsGo true rest
      else ' ' :: collapseWsGo true rest
    else c :: collapseWsGo false rest

/-- replace(/\s+([.,!?])/g, p): drop the space before punctuation.  Runs on
the output of the whitespace collapse, where every run is one space. -/
def fixSpacePunct : List Char → List Char
  | [] => []
  | [c] => [c]
  | c :: d :: rest =>
    if jsWsChar c && (d == '.' || d == ',' || d == '!' || d == '?') then
      d :: fixSpacePunct rest
    else c :: fixSpacePunct (d :: rest)

/-- Lowercase ASCII letter. -/
def isLowerAscii (c : Char) : Bool :=
  'a' ≤ c && c ≤ 'z'

/-- replace(/([.!?])\s*([a-z])/g, p + space + uppercase): recapitalize after
sentence punctuation.  Runs after the collapse, so \s* is at most one space. -/
def fixSentence : List Char → List Char
  | [] => []
  | [p] => [p]
  | p :: c :: rest =>
    if p == '.' || p == '!' || p == '?' then
      if isLowerAscii c then p :: ' ' :: c.toUpper :: fixSentence rest
      else if jsWsChar c then
        match rest with
        | [] => p :: fixSentence [c]
        | d :: rest' =>
          if isLowerAscii d then p :: ' ' :: d.toUpper :: fixSentence rest'
          else p :: fixSentence (c :: d :: rest')
      else p :: fixSentence (c :: rest)
    else p :: fixSentence (c :: rest)
termination_by l => l.length
decreasing_by all_goals simp_arith [List.length]

/-- replace(/^[a-z]/, uppercase). -/
def capitalizeFirst : List Char → List Char
  | [] => []
  | c :: rest => if isLowerAscii c then c.toUpper :: rest else c :: rest

/-- AIService.cleanTranscript(rawText): filler removal, whitespace collapse,
punctuation spacing, sentence capitalization, trim and final period. -/
def cleanTranscript (rawText : String) : String :=
  if rawText = "" then ""
  else
    let l0 := rawText.toList
    let l1 := removeFillersGo l0.length false l0
    let l2 := collapseWsGo false l1
    let l3 := fixSpacePunct l2
    let l4 := fixSentence l3
    let l5 := capitalizeFirst l4
    let cleaned := jsTrimList l5
    let final :=
      match cleaned.getLast? with
      | some c => if c == '.' || c == '!' || c == '?' then cleaned else cleaned ++ ['.']
      | none => cleaned
    String.mk final

/- ## Per-question analysis and session aggregation -/

/-- A question entry of the session blob handed to evaluateInterview; absent
JS fields (null userAnswer, cleanedAnswer) are modelled as "". -/
structure SessionQ where
  question : String
  userAnswer : String
  cleanedAnswer : String
  expectedConcepts : List String
deriving Repr, DecidableEq, Inhabited

/-- The per-question analysis record built by
analyzeSingleAnswerIntelligently. -/
structure Analysis where
  questionIndex : ℕ
  question : String
  originalAnswer : String
  cleanedAnswer : String
  score : ℤ
  correctness : String
  strengths : List String
  weaknesses : List String
  missingConcepts : List String
  conceptCorrections : List String
  feedback : String
  scoreReason : String
deriving Repr, DecidableEq, Inhabited

/-- AIService.generateDetailedFeedback(analysis).  JS strengths[0] on an
empty list interpolates as the string undefined. -/
def generateDetailedFeedback (a : Analysis) : String :=
  if a.correctness = "correct" then
    "✅ Excellent answer! " ++ a.strengths.getD 0 "undefined" ++ ". "
      ++ (if a.strengths.length > 1 then
            "Particularly strong: " ++ String.intercalate ", " ((a.strengths.drop 1).take 2) ++ "."
          else "")
  else if a.correctness = "partial" then
    "⚠️ Good attempt. " ++ a.weaknesses.getD 0 "undefined" ++ ". "
      ++ (if a.missingConcepts.length > 0 then
            "Focus on: " ++ String.intercalate ", " (a.missingConcepts.take 3) ++ "."
          else "")
  else if a.correctness = "incorrect" then
    "❌ Needs significant improvement. " ++ a.weaknesses.getD 0 "undefined" ++ ".\n\n"
      ++ "Key concepts to review:\n"
      ++ String.join ((a.missingConcepts.take 3).map (fun c => "• " ++ c ++ "\n"))
  else ""

/-- AIService.analyzeSingleAnswerIntelligently(q, role, index).  The answer
evaluated is q.cleanedAnswer || q.userAnswer || '' (JS || on strings). -/
def analyzeSingleAnswerIntelligently (q : SessionQ) (role : String) (index : ℕ) : Analysis :=
  let answer := jsOr q.cleanedAnswer q.userAnswer
  if jsTrim answer = "" then
    { questionIndex := index, question := q.question, originalAnswer := q.userAnswer
      cleanedAnswer := answer, score := 0, correctness := "incorrect"
      strengths := [], weaknesses := ["No answer provided"], missingConcepts := []
      conceptCorrections := [], feedback := "Please provide an answer to receive feedback."
      scoreReason := "No answer given - score 0%" }
  else
    let r := evaluateAnswerIntelligently q.question answer q.expectedConcepts role
    let base : Analysis :=
      { questionIndex := index, question := q.question, originalAnswer := q.userAnswer
        cleanedAnswer := answer, score := r.score, correctness := r.correctness
        strengths := r.strengths, weaknesses := r.weaknesses
        missingConcepts := r.missingConcepts, conceptCorrections := r.conceptCorrections
        feedback := "", scoreReason := r.scoreReason }
    { base with feedback := generateDetailedFeedback base }

/-- The stats object of the report.  JS field names are correct, partial,
incorrect; the middle one is renamed here because it collides with a Lean
keyword. -/
structure Stats where
  correct : ℕ
  partialCount : ℕ
  incorrect : ℕ
deriving Repr, DecidableEq, Inhabited

/-- The session report built by generateIntelligentReport (and
getEmptyEvaluation / getFallbackEvaluation). -/
structure Report where
  overallScore : ℤ
  scoreExplanation : String
  strengths : List String
  weaknesses : List String
  missingConcepts : List String
  suggestions : List String
  knowledgeLevel : String
  questionAnalyses : List Analysis
  stats : Stats
deriving Repr, DecidableEq, Inhabited

/-- JS [...new Set(arr)]: order-preserving deduplication, first occurrence
wins (AIService.deduplicateArray). -/
def jsDedup : List String → List String
  | [] => []
  | a :: l => a :: jsDedup (l.filter (fun b => decide (b ≠ a)))
termination_by l => l.length
decreasing_by
  simp only [List.length_cons]
  exact Nat.lt_succ_of_le (List.length_filter_le _ _)

/-- AIService.determineKnowledgeLevel(overallScore, analyses); avgDepth is the
mean cleaned-answer length.  (On an empty list JS divides 0/0 giving NaN,
which fails every comparison and falls through to Beginner; Lean's 0-division
convention gives 0 and also falls through to Beginner.) -/
def determineKnowledgeLevel (overallScore : ℤ) (analyses : List Analysis) : String :=
  let avgDepth : ℚ :=
    (analyses.map (fun a => (a.cleanedAnswer.length : ℚ))).sum / (analyses.length : ℚ)
  if 85 ≤ overallScore ∧ 150 < avgDepth then "Expert"
  else if 70 ≤ overallScore ∧ 100 < avgDepth then "Advanced"
  else if 50 ≤ overallScore ∧ 60 < avgDepth then "Intermediate"
  else "Beginner"

/-- The session blob passed to evaluateInterview; a null role is "". -/
structure SessionData where
  role : String
  questions : List SessionQ
deriving Repr, DecidableEq, Inhabited

/-- AIService.generateIntelligentReport(analyses, sessionData).  Only called
with a non-empty analyses list (evaluateInterview filters the empty session
out first); on [] the JS mean would be NaN where Lean's 0-division gives 0. -/
def generateIntelligentReport (analyses : List Analysis) (_sessionData : SessionData) : Report :=
  let totalScore : ℚ := (analyses.map (fun a => (a.score : ℚ))).sum
  let overallScore : ℤ := jsRound (totalScore / (analyses.length : ℚ))
  let correctCount := (analyses.filter (fun a => a.correctness == "correct")).length
  let partialCnt := (analyses.filter (fun a => a.correctness == "partial")).length
  let incorrectCount := (analyses.filter (fun a => a.correctness == "incorrect")).length
  let allStrengths := (analyses.map (fun a => a.strengths)).flatten
  let allWeaknesses := (analyses.map (fun a => a.weaknesses)).flatten
  let allMissingConcepts := jsDedup ((analyses.map (fun a => a.missingConcepts)).flatten)
  let scoreExplanation :=
    "Overall Score: " ++ toString overallScore ++ "%\n\n"
    ++ "Breakdown:\n"
    ++ "✅ Correct answers: " ++ toString correctCount ++ "\n"
    ++ "⚠️ Partially correct: " ++ toString partialCnt ++ "\n"
    ++ "❌ Needs improvement: " ++ toString incorrectCount ++ "\n\n"
    ++ (if 80 ≤ overallScore then "Strong performance! You demonstrated good understanding of most concepts."
        else if 60 ≤ overallScore then "Solid foundation but needs reinforcement in key areas."
        else "Significant gaps identified. Focus on fundamentals.")
    ++ (if allMissingConcepts.length > 0 then
          "\n\nPriority concepts to review:\n"
            ++ String.join ((allMissingConcepts.take 5).map (fun c => "• " ++ c ++ "\n"))
        else "")
  let suggestions0 :=
    (if incorrectCount > 0 then
        ["Review fundamentals: " ++ String.intercalate ", " (allMissingConcepts.take 3)]
      else [])
    ++ (if analyses.any (fun a => !containsExamples a.cleanedAnswer) then
          ["Include concrete examples in your answers"] else [])
    ++ (if analyses.any (fun a => a.cleanedAnswer.length < 50) then
          ["Provide more detailed, elaborated responses"] else [])
  let suggestions :=
    if suggestions0.length < 3 then
      suggestions0 ++ ["Practice with timed mock interviews", "Study role-specific case studies"]
    else suggestions0
  { overallScore := overallScore
    scoreExplanation := scoreExplanation
    strengths := (jsDedup allStrengths).take 5
    weaknesses := (jsDedup allWeaknesses).take 5
    missingConcepts := allMissingConcepts.take 5
    suggestions := suggestions.take 5
    knowledgeLevel := determineKnowledgeLevel overallScore analyses
    questionAnalyses := analyses
    stats := { correct := correctCount, partialCount := partialCnt, incorrect := incorrectCount } }

/-- AIService.getEmptyEvaluation(). -/
def getEmptyEvaluation : Report :=
  { overallScore := 0
    scoreExplanation := "No answers provided for evaluation"
    strengths := ["Complete an interview first"]
    weaknesses := ["No data available"]
    missingConcepts := []
    suggestions := ["Start a new interview session"]
    knowledgeLevel := "Not assessed"
    questionAnalyses := []
    stats := { correct := 0, partialCount := 0, incorrect := 0 } }

/-- AIService.analyzeAllAnswers: one analysis per question, in order, with
the index threaded through (role falls back to Data Scientist when ""). -/
def analyzeAllAnswers (role : String) (questions : List SessionQ) : List Analysis :=
  questions.mapIdx (fun i q => analyzeSingleAnswerIntelligently q (jsOr role "Data Scientist") i)

/-- AIService.evaluateInterview(sessionData): guard on an empty question
list, clean each answer, analyze and aggregate.  The JS try/catch never
fires in this pure embedding. -/
def evaluateInterview (s : SessionData) : Report :=
  if s.questions.length = 0 then getEmptyEvaluation
  else
    let cleaned := s.questions.map (fun q => { q with cleanedAnswer := cleanTranscript q.userAnswer })
    generateIntelligentReport (analyzeAllAnswers s.role cleaned) { s with questions := cleaned }


/- ## History Store (StorageService) -/

/-- The summary block of the record built by
InterviewEngine.saveInterviewResult. -/
structure SummaryData where
  questionsCount : ℕ
  answeredCount : ℕ
  duration : ℚ
  knowledgeLevel : String
  strengths : List String
  weaknesses : List String
  stats : Stats
deriving Repr, DecidableEq, Inhabited

/-- A persisted history record.  Fields a given record does not carry in JS
(e.g. savedAt before saving) are modelled as "" / defaults. -/
structure HistoryRecord where
  id : String
  date : String
  savedAt : String
  role : String
  difficulty : String
  score : ℚ
  skills : List (String × ℚ)
  summary : SummaryData
deriving Repr, DecidableEq, Inhabited

/-- StorageService.maxHistoryItems. -/
def maxHistoryItems : ℕ := 50

/-- StorageService.saveInterview(interviewData): prepend the new record
(with id falling back to a generated one and savedAt stamped), then cap the
list at maxHistoryItems.  genId and now stand for the nondeterministic
generateId() and new Date().  The stored list is newest-first. -/
def saveInterview (d : HistoryRecord) (genId now : String)
    (history : List HistoryRecord) : HistoryRecord × List HistoryRecord :=
  let newInterview := { d with id := jsOr d.id genId, savedAt := now }
  let h := newInterview :: history
  let h' := if h.length > maxHistoryItems then h.take maxHistoryItems else h
  (newInterview, h')

/-- StorageService.deleteInterview(id): filter the record list and report
success (the JS function returns true whether or not the id was present;
false only on a storage exception, which the pure embedding has none of). -/
def deleteInterview (id : String) (history : List HistoryRecord) :
    Bool × List HistoryRecord :=
  (true, history.filter (fun item => !(item.id == id)))

/-- StorageService.clearHistory(). -/
def clearHistory (_history : List HistoryRecord) : Bool × List HistoryRecord :=
  (true, [])

/-- The object returned by StorageService.getStats(). -/
structure StorageStats where
  totalInterviews : ℕ
  averageScore : ℤ
  bestScore : ℚ
  recentTrend : ℤ
deriving Repr, DecidableEq, Inhabited

/-- The recent average of getStats: mean of the 5 newest scores. -/
def recentAvgOf (scores : List ℚ) : ℚ :=
  (scores.take 5).sum / ((scores.take 5).length : ℚ)

/-- The previous average of getStats: mean of scores 6–10. -/
def previousAvgOf (scores : List ℚ) : ℚ :=
  ((scores.drop 5).take 5).sum / (((scores.drop 5).take 5).length : ℚ)

/-- StorageService.getStats().  A record's missing score (i.score || 0) is
modelled by the total score field.  When the previous average is 0 the JS
division yields Infinity/NaN; Lean's 0-division convention yields 0 there,
and the trend theorems assume a non-zero previous average. -/
def getStats (history : List HistoryRecord) : StorageStats :=
  if history.length = 0 then
    { totalInterviews := 0, averageScore := 0, bestScore := 0, recentTrend := 0 }
  else
    let scores := history.map (fun i => i.score)
    let totalInterviews := history.length
    let averageScore := jsRound (scores.sum / (totalInterviews : ℚ))
    let bestScore := match scores with
      | [] => 0
      | s :: rest => rest.foldl max s
    let previousScores := (scores.drop 5).take 5
    let recentTrend :=
      if previousScores.length > 0 then
        jsRound ((recentAvgOf scores - previousAvgOf scores) / previousAvgOf scores * 100)
      else 0
    { totalInterviews := totalInterviews, averageScore := averageScore
      bestScore := bestScore, recentTrend := recentTrend }

/-- The {history, exportDate, version} payload serialized by
StorageService.exportData().  history is an Option so that a payload whose
history field is missing or not an array (importData's validity check) is
representable; JSON serialization of these plain records is modelled as the
identity, so export carries the record list itself. -/
structure ExportPayload where
  history : Option (List HistoryRecord)
  exportDate : String
  version : String
deriving Repr, DecidableEq, Inhabited

/-- StorageService.exportData(): the serialized payload (the download/DOM
side effects are out of scope). -/
def exportData (history : List HistoryRecord) (exportDate : String) : ExportPayload :=
  { history := some history, exportDate := exportDate, version := "1.0" }

/-- StorageService.importData(jsonData): none models a string JSON.parse
rejects; a payload without a history array returns false and leaves the
store unchanged; otherwise the store becomes exactly the imported list
(no cap is applied) and true is returned. -/
def importData (payload : Option ExportPayload) (history : List HistoryRecord) :
    Bool × List HistoryRecord :=
  match payload with
  | some p =>
    match p.history with
    | some h => (true, h)
    | none => (false, history)
  | none => (false, history)

/-- One user-visible mutation of the History Store. -/
inductive StorageOp where
  | save (d : HistoryRecord) (genId now : String)
  | del (id : String)
  | clear
  | imp (payload : Option ExportPayload)
deriving Repr

/-- State transition of one operation. -/
def applyOp (st : List HistoryRecord) : StorageOp → List HistoryRecord
  | .save d g n => (saveInterview d g n st).2
  | .del id => (deleteInterview id st).2
  | .clear => (clearHistory st).2
  | .imp p => (importData p st).2

/-- A sequence of store operations applied in order. -/
def applyOps (ops : List StorageOp) (st : List HistoryRecord) : List HistoryRecord :=
  ops.foldl applyOp st

/- ## Interview Engine persistence (saveInterviewResult / extractSkills) -/

/-- InterviewEngine.extractSkills(evaluation).  r1–r4 stand for the four
Math.random() draws (each in [0,1)); the returned object is modelled as a
key/value list so that which fields exist is part of the statement. -/
def extractSkills (evaluation : Report) (r1 r2 r3 r4 : ℚ) : List (String × ℚ) :=
  let baseScore : ℚ := (evaluation.overallScore : ℚ)
  [("technical", min 100 (baseScore + (r1 * 10 - 5))),
   ("communication", min 100 (baseScore + (r2 * 15 - 7))),
   ("problemSolving", min 100 (baseScore + (r3 * 10 - 5))),
   ("experience", min 100 (baseScore + (r4 * 20 - 10)))]

/-- The interviewData record built by InterviewEngine.saveInterviewResult
before it is handed to StorageService.saveInterview.  sessionId, nowIso,
role, difficulty, startTime and now stand for the engine state and clock. -/
def buildInterviewData (evaluation : Report) (sessionData : SessionData)
    (sessionId nowIso role difficulty : String) (startTime now : ℚ)
    (r1 r2 r3 r4 : ℚ) : HistoryRecord :=
  { id := sessionId
    date := nowIso
    savedAt := ""
    role := role
    difficulty := difficulty
    score := (evaluation.overallScore : ℚ)
    skills := extractSkills evaluation r1 r2 r3 r4
    summary :=
      { questionsCount := sessionData.questions.length
        answeredCount := (sessionData.questions.filter (fun q => !(q.userAnswer == ""))).length
        duration := now - startTime
        knowledgeLevel := evaluation.knowledgeLevel
        strengths := evaluation.strengths.take 3
        weaknesses := evaluation.weaknesses.take 3
        stats := evaluation.stats } }

/-- InterviewEngine.saveInterviewResult: build the record and persist it via
StorageService.saveInterview. -/
def saveInterviewResult (evaluation : Report) (sessionData : SessionData)
    (sessionId nowIso role difficulty : String) (startTime now : ℚ)
    (r1 r2 r3 r4 : ℚ) (genId savedAt : String)
    (history : List HistoryRecord) : HistoryRecord × List HistoryRecord :=
  saveInterview
    (buildInterviewData evaluation sessionData sessionId nowIso role difficulty startTime now r1 r2 r3 r4)
    genId savedAt history

/- ## Sanitization (parseQuestions / sanitizeText) -/

/-- Drop characters up to and including the first gt sign, the span consumed
by one match of the regex tag pattern after its lt sign. -/
def dropThroughGt : List Char → Option (List Char)
  | [] => none
  | c :: rest => if c == '>' then some rest else dropThroughGt rest

theorem dropThroughGt_length : ∀ (l r : List Char), dropThroughGt l = some r → r.length < l.length := by
  intro l
  induction l with
  | nil => intro r h; simp [dropThroughGt] at h
  | cons c rest ih =>
    intro r h
    simp only [dropThroughGt] at h
    by_cases hc : (c == '>') = true
    · simp [hc] at h
      subst h
      simp
    · simp [hc] at h
      exact Nat.lt_succ_of_lt (ih r h)

/-- Scan of the tag-removal replace; the fuel bounds the steps (each step
consumes at least one character, so fuel = length always suffices). -/
def stripTagsGo : ℕ → List Char → List Char
  | 0, l => l
  | _, [] => []
  | fuel + 1, c :: rest =>
    if c == '<' then
      match dropThroughGt rest with
      | some rest' => stripTagsGo fuel rest'
      | none => c :: rest
    else c :: stripTagsGo fuel rest

/-- JS s.replace(/<[^>]*>/g, ''): each match runs from a lt sign to the
first following gt sign; a lt sign with no later gt sign starts no match. -/
def stripTags (l : List Char) : List Char :=
  stripTagsGo l.length l

/-- Whether a character list still contains an HTML-tag shaped span: a lt
sign with a gt sign somewhere after it (exactly when /<[^>]*>/ matches). -/
def containsTagPair (l : List Char) : Bool :=
  match l.dropWhile (fun c => !(c == '<')) with
  | [] => false
  | _ :: rest => rest.contains '>'

/-- JS AIService.sanitizeText: empty in, empty out; otherwise strip tag
matches and trim. -/
def sanitizeText (text : String) : String :=
  if text = "" then ""
  else String.mk (jsTrimList (stripTags text.toList))

/- ## JSON values and JSON.parse -/

/-- A parsed JSON value. -/
inductive Json where
  | null
  | bool (b : Bool)
  | num (q : ℚ)
  | str (s : String)
  | arr (elems : List Json)
  | obj (fields : List (String × Json))
deriving Inhabited

/-- Whitespace JSON.parse skips between tokens. -/
def skipJsonWs (l : List Char) : List Char :=
  l.dropWhile (fun c => c == ' ' || c == '\t' || c == '\n' || c == '\r')

/-- Hexadecimal digit test for the \u escape. -/
def isHexDigitChar (c : Char) : Bool :=
  c.isDigit || ('a' ≤ c && c ≤ 'f') || ('A' ≤ c && c ≤ 'F')

/-- String body parser, after the opening quote: plain characters, the JSON
escapes, and rejection of raw control characters, as JSON.parse does. -/
def parseJsonStringGo : List Char → List Char → Option (String × List Char)
  | _, [] => none
  | acc, c :: rest =>
    if c == '"' then some (String.mk acc.reverse, rest)
    else if c == '\\' then
      match rest with
      | [] => none
      | e :: rest' =>
        if e == '"' then parseJsonStringGo ('"' :: acc) rest'
        else if e == '\\' then parseJsonStringGo ('\\' :: acc) rest'
        else if e == '/' then parseJsonStringGo ('/' :: acc) rest'
        else if e == 'b' then parseJsonStringGo (Char.ofNat 8 :: acc) rest'
        else if e == 'f' then parseJsonStringGo (Char.ofNat 12 :: acc) rest'
        else if e == 'n' then parseJsonStringGo ('\n' :: acc) rest'
        else if e == 'r' then parseJsonStringGo ('\r' :: acc) rest'
        else if e == 't' then parseJsonStringGo ('\t' :: acc) rest'
        else if e == 'u' then
          match rest' with
          | h1 :: h2 :: h3 :: h4 :: rest'' =>
            if isHexDigitChar h1 && isHexDigitChar h2 && isHexDigitChar h3 && isHexDigitChar h4 then
              let v := [h1, h2, h3, h4].foldl (fun n c =>
                n * 16 + (if c.isDigit then c.toNat - 48
                          else if 'a' ≤ c.toLower ∧ c.toLower ≤ 'f' then c.toLower.toNat - 87 else 0)) 0
              parseJsonStringGo (Char.ofNat v :: acc) rest''
            else none
          | _ => none
        else none
    else if c.val < 32 then none
    else parseJsonStringGo (c :: acc) rest

/-- Digits to a natural number. -/
def digitsToNat (ds : List Char) : ℕ :=
  ds.foldl (fun n c => n * 10 + (c.toNat - 48)) 0

/-- JSON number grammar: optional minus, integer part with no leading zero,
optional fraction, optional exponent. -/
def parseJsonNumber (l : List Char) : Option (ℚ × List Char) :=
  let (neg, l1) := match l with
    | '-' :: rest => (true, rest)
    | _ => (false, l)
  let intPart : Option (ℕ × List Char) := match l1 with
    | '0' :: rest =>
      match rest with
      | d :: _ => if d.isDigit then none else some (0, rest)
      | [] => some (0, [])
    | d :: _ =>
      if d.isDigit then
        some (digitsToNat (l1.takeWhile Char.isDigit), l1.dropWhile Char.isDigit)
      else none
    | [] => none
  match intPart with
  | none => none
  | some (ip, l2) =>
    let fracPart : Option (ℚ × List Char) := match l2 with
      | '.' :: rest =>
        let ds := rest.takeWhile Char.isDigit
        if ds.length = 0 then none
        else some ((digitsToNat ds : ℚ) / (10 : ℚ) ^ ds.length, rest.dropWhile Char.isDigit)
      | _ => some (0, l2)
    match fracPart with
    | none => none
    | some (fp, l3) =>
      let expPart : Option (ℤ × List Char) := match l3 with
        | e :: rest =>
          if e == 'e' || e == 'E' then
            let (esign, rest') : ℤ × List Char := match rest with
              | '+' :: r => (1, r)
              | '-' :: r => (-1, r)
              | _ => (1, rest)
            let ds := rest'.takeWhile Char.isDigit
            if ds.length = 0 then none
            else some (esign * (digitsToNat ds : ℤ), rest'.dropWhile Char.isDigit)
          else some (0, l3)
        | [] => some (0, [])
      match expPart with
      | none => none
      | some (ex, l4) =>
        let mag : ℚ := ((ip : ℚ) + fp) * (10 : ℚ) ^ ex
        some ((if neg then -mag else mag), l4)

mutual

/-- One JSON value; the fuel bounds recursion depth and loop steps (two
units of fuel per input character is always enough). -/
def parseJsonValue : ℕ → List Char → Option (Json × List Char)
  | 0, _ => none
  | fuel + 1, l0 =>
    match skipJsonWs l0 with
    | [] => none
    | c :: rest =>
      if c == '"' then (parseJsonStringGo [] rest).map (fun p => (Json.str p.1, p.2))
      else if c == '[' then
        match skipJsonWs rest with
        | ']' :: rest' => some (Json.arr [], rest')
        | _ => parseJsonElems fuel rest []
      else if c == '{' then
        match skipJsonWs rest with
        | '}' :: rest' => some (Json.obj [], rest')
        | _ => parseJsonMembers fuel rest []
      else if c == 't' then
        match rest with
        | 'r' :: 'u' :: 'e' :: rest' => some (Json.bool true, rest')
        | _ => none
      else if c == 'f' then
        match rest with
        | 'a' :: 'l' :: 's' :: 'e' :: rest' => some (Json.bool false, rest')
        | _ => none
      else if c == 'n' then
        match rest with
        | 'u' :: 'l' :: 'l' :: rest' => some (Json.null, rest')
        | _ => none
      else if c == '-' || c.isDigit then (parseJsonNumber (c :: rest)).map (fun p => (Json.num p.1, p.2))
      else none

/-- Comma-separated array elements up to the closing bracket. -/
def parseJsonElems : ℕ → List Char → List Json → Option (Json × List Char)
  | 0, _, _ => none
  | fuel + 1, l, acc =>
    match parseJsonValue fuel l with
    | none => none
    | some (v, l') =>
      match skipJsonWs l' with
      | ',' :: l'' => parseJsonElems fuel l'' (v :: acc)
      | ']' :: l'' => some (Json.arr (v :: acc).reverse, l'')
      | _ => none

/-- Comma-separated object members up to the closing brace. -/
def parseJsonMembers : ℕ → List Char → List (String × Json) → Option (Json × List Char)
  | 0, _, _ => none
  | fuel + 1, l, acc =>
    match skipJsonWs l with
    | '"' :: rest =>
      match parseJsonStringGo [] rest with
      | none => none
      | some (k, l') =>
        match skipJsonWs l' with
        | ':' :: l'' =>
          match parseJsonValue fuel l'' with
          | none => none
          | some (v, l3) =>
            match skipJsonWs l3 with
            | ',' :: l4 => parseJsonMembers fuel l4 ((k, v) :: acc)
            | '}' :: l4 => some (Json.obj ((k, v) :: acc).reverse, l4)
            | _ => none
        | _ => none
    | _ => none

end

/-- JSON.parse: parse one value and require only whitespace after it. -/
def jsonParse (s : String) : Option Json :=
  match parseJsonValue (2 * s.length + 4) s.toList with
  | some (v, rest) => if (skipJsonWs rest).isEmpty then some v else none
  | none => none

/- ## parseQuestions and the mock question set -/

/-- Property access o[k] on a parsed JSON value: none models a JS throw
(property access on null), some none models undefined (missing key or a
primitive receiver), some (some v) the value.  JSON.parse keeps the last
duplicate key, hence the reversed lookup. -/
def jsonGetField : Json → String → Option (Option Json)
  | Json.null, _ => none
  | Json.obj fields, k => some ((fields.reverse.find? (fun p => p.1 == k)).map (fun p => p.2))
  | _, _ => some none

/-- JS truthiness of a parsed JSON value. -/
def jsTruthy : Json → Bool
  | Json.null => false
  | Json.bool b => b
  | Json.num q => !(q == 0)
  | Json.str s => !(s == "")
  | Json.arr _ => true
  | Json.obj _ => true

mutual

/-- JS String() coercion of a parsed JSON value.  Number rendering is
simplified to integer / fraction notation (no claim depends on it); arrays
join their elements with commas as Array.prototype.toString does. -/
def jsStringOfJson : Json → String
  | Json.null => "null"
  | Json.bool b => if b then "true" else "false"
  | Json.num q => if q.den = 1 then toString q.num else toString q
  | Json.str s => s
  | Json.arr xs => String.intercalate "," (jsStringOfJsonList xs)
  | Json.obj _ => "[object Object]"

/-- Element rendering for the array join (null renders empty there). -/
def jsStringOfJsonList : List Json → List String
  | [] => []
  | Json.null :: xs => "" :: jsStringOfJsonList xs
  | x :: xs => jsStringOfJson x :: jsStringOfJsonList xs

end

/-- A question object, both as parsed from a response and as produced by
generateMockQuestions. -/
structure MockQ where
  question : String
  expectedConcepts : List String
  difficulty : String
deriving Repr, DecidableEq, Inhabited

/-- sanitizeText applied to an arbitrary JSON value, as the JS function is:
falsy values give '', others are String()-coerced then stripped/trimmed. -/
def sanitizeJsonText (v : Json) : String :=
  if jsTruthy v then sanitizeText (jsStringOfJson v) else ""

/-- sanitizeText(q.question || ''): the falsy field gives '', a truthy one
is String()-coerced, then tags are stripped and the result trimmed. -/
def questionTextOf (qf : Option Json) : String :=
  match qf with
  | some v => if jsTruthy v then sanitizeText (jsStringOfJson v) else sanitizeText ""
  | none => sanitizeText ""

/-- (q.expectedConcepts || []).map(sanitizeText): none models the TypeError
thrown by .map on a truthy non-array value. -/
def conceptsListOf (cf : Option Json) : Option (List String) :=
  match cf with
  | some (Json.arr xs) => some (xs.map sanitizeJsonText)
  | some v => if jsTruthy v then none else some []
  | none => some []

/-- q.difficulty || 'mid' (coerced to a string for the typed field). -/
def difficultyOf (df : Option Json) : String :=
  match df with
  | some v => if jsTruthy v then jsStringOfJson v else "mid"
  | none => "mid"

/-- Build one output entry of parseQuestions' validation map over the parsed
array.  none models a thrown TypeError (field access on null, or .map on a
truthy non-array expectedConcepts), which the surrounding try/catch turns
into the mock fallback. -/
def buildParsedQuestion (q : Json) : Option MockQ :=
  match jsonGetField q "question" with
  | none => none
  | some qf =>
    match jsonGetField q "expectedConcepts" with
    | none => none
    | some cf =>
      match conceptsListOf cf with
      | none => none
      | some concepts =>
        match jsonGetField q "difficulty" with
        | none => none
        | some df =>
          some { question := questionTextOf qf, expectedConcepts := concepts
                 difficulty := difficultyOf df }

/-- The regex match response.match(/\[[\s\S]*\]/): from the first opening
bracket through the last closing bracket after it, none when absent. -/
def jsonArrayMatch (s : String) : Option (List Char) :=
  let rest := s.toList.dropWhile (fun c => !(c == '['))
  match rest with
  | [] => none
  | _ =>
    let upto := (rest.reverse.dropWhile (fun c => !(c == ']'))).reverse
    if upto.isEmpty then none else some upto

/-- The parse stage of parseQuestions: take the bracket match, strip tag
matches and non-printable characters, JSON.parse it, and require an array;
none is any failure on that path (the JS catch). -/
def parseQuestionsJson (response : String) : Option (List Json) :=
  match jsonArrayMatch response with
  | none => none
  | some matched =>
    let jsonStr := (stripTags matched).filter (fun c => 32 ≤ c.val && c.val ≤ 126)
    match jsonParse (String.mk jsonStr) with
    | some (Json.arr xs) => some xs
    | _ => none

/-- The JS Array.prototype.map with exception propagation: the first entry
whose body throws aborts the whole map. -/
def mapOrThrow (f : Json → Option MockQ) : List Json → Option (List MockQ)
  | [] => some []
  | x :: xs =>
    match f x with
    | none => none
    | some y => (mapOrThrow f xs).map (fun ys => y :: ys)

/-- The validated, sanitized first count questions of the parsed array;
none when the validation map throws. -/
def parsedQuestionsOf (xs : List Json) (count : ℕ) : Option (List MockQ) :=
  mapOrThrow buildParsedQuestion (xs.take count)

/-- The Data Scientist entries of the mockQuestions table in
generateMockQuestions. -/
def dsMockQuestions (difficulty : String) : List MockQ :=
  [{ question := "Explain the bias-variance tradeoff and how it affects model performance."
     expectedConcepts := ["bias", "variance", "overfitting", "underfitting", "model complexity"]
     difficulty := difficulty },
   { question := "How would you handle imbalanced classes in a classification problem?"
     expectedConcepts := ["resampling", "SMOTE", "class weights", "evaluation metrics", "cost-sensitive learning"]
     difficulty := difficulty },
   { question := "Explain the difference between L1 and L2 regularization."
     expectedConcepts := ["lasso", "ridge", "feature selection", "sparsity", "overfitting prevention"]
     difficulty := difficulty },
   { question := "Describe a project where you used cross-validation and why it was important."
     expectedConcepts := ["k-fold", "validation", "overfitting", "model selection", "bias reduction"]
     difficulty := difficulty }]

/-- The Frontend Developer entries of the mockQuestions table. -/
def feMockQuestions (difficulty : String) : List MockQ :=
  [{ question := "Explain React's virtual DOM and how it improves performance."
     expectedConcepts := ["virtual DOM", "diffing", "reconciliation", "batching", "performance optimization"]
     difficulty := difficulty },
   { question := "How would you optimize a slow-loading React application?"
     expectedConcepts := ["code splitting", "lazy loading", "memoization", "bundle optimization", "caching"]
     difficulty := difficulty },
   { question := "Explain CSS specificity and how it affects styling."
     expectedConcepts := ["selectors", "cascade", "inheritance", "importance", "inline styles"]
     difficulty := difficulty }]

/-- The Product Manager entries of the mockQuestions table. -/
def pmMockQuestions (difficulty : String) : List MockQ :=
  [{ question := "How do you prioritize features when stakeholders have conflicting requirements?"
     expectedConcepts := ["value vs effort", "stakeholder management", "data-driven decisions", "user impact", "strategic alignment"]
     difficulty := difficulty },
   { question := "Describe your process for validating a new product idea."
     expectedConcepts := ["user research", "MVP", "prototyping", "feedback loops", "market analysis"]
     difficulty := difficulty }]

/-- mockQuestions[role] || mockQuestions['Data Scientist']. -/
def mockQuestionsFor (role difficulty : String) : List MockQ :=
  if role = "Data Scientist" then dsMockQuestions difficulty
  else if role = "Frontend Developer" then feMockQuestions difficulty
  else if role = "Product Manager" then pmMockQuestions difficulty
  else dsMockQuestions difficulty

/-- The follow-up copy made by the padding loop. -/
def followUp (m : MockQ) : MockQ :=
  { m with question := m.question ++ " (follow-up)" }

/-- The while loop of generateMockQuestions that pads selected with
follow-up copies of roleQuestions entries until count is reached; fuel is
the loop bound (count iterations always suffice). -/
def padFollowUps (rq : List MockQ) (count : ℕ) : ℕ → List MockQ → List MockQ
  | 0, selected => selected
  | fuel + 1, selected =>
    if selected.length < count then
      padFollowUps rq count fuel (selected ++ [followUp (rq.getD (selected.length % rq.length) default)])
    else selected

/-- AIService.generateMockQuestions(role, difficulty, count, domainKeywords).
The random shuffle [...roleQuestions].sort(() => 0.5 - Math.random()) is the
shuffle parameter (theorems that need it assume it permutes its input);
domainKeywords is accepted and ignored exactly as in the source body. -/
def generateMockQuestions (role difficulty : String) (count : ℕ)
    (_domainKeywords : List String) (shuffle : List MockQ → List MockQ) : List MockQ :=
  let roleQuestions := mockQuestionsFor role difficulty
  let shuffled := shuffle roleQuestions
  let selected := shuffled.take (min count shuffled.length)
  padFollowUps roleQuestions count count selected

/-- AIService.parseQuestions(response, count): on any failure of the match /
sanitize / JSON.parse / validate pipeline the catch returns the mock set for
the hard-coded role Data Scientist at difficulty mid. -/
def parseQuestions (response : String) (count : ℕ)
    (shuffle : List MockQ → List MockQ) : List MockQ :=
  match parseQuestionsJson response with
  | some xs =>
    match parsedQuestionsOf xs count with
    | some qs => qs
    | none => generateMockQuestions "Data Scientist" "mid" count [] shuffle
  | none => generateMockQuestions "Data Scientist" "mid" count [] shuffle

/- ## Shared arithmetic and scorer lemmas -/

theorem jsRound_eq_of (x : ℚ) (n : ℤ) (h1 : (n : ℚ) ≤ x + 1/2) (h2 : x + 1/2 < (n : ℚ) + 1) :
    jsRound x = n := by
  unfold jsRound
  apply Int.floor_eq_iff.mpr
  exact ⟨h1, h2⟩

theorem conceptScoreOf_nonneg (a : String) (cs : List String) : 0 ≤ conceptScoreOf a cs := by
  unfold conceptScoreOf
  split
  · positivity
  · norm_num

theorem depthScoreOf_nonneg (a : String) : 0 ≤ depthScoreOf a := by
  unfold depthScoreOf
  exact le_min (by norm_num) (by positivity)

theorem totalRawScore_nonneg (a : String) (cs : List String) (role : String) :
    0 ≤ totalRawScore a cs role := by
  unfold totalRawScore
  have h1 := conceptScoreOf_nonneg a cs
  have h2 := depthScoreOf_nonneg a
  split_ifs <;> linarith

theorem finalScore_nonneg (a : String) (cs : List String) (role : String) :
    0 ≤ finalScore a cs role := by
  unfold finalScore jsRound
  refine le_min (by norm_num) ?_
  rw [Int.le_floor]
  have := totalRawScore_nonneg a cs role
  push_cast
  linarith

theorem finalScore_le (a : String) (cs : List String) (role : String) :
    finalScore a cs role ≤ 100 := min_le_left _ _

theorem evaluateAnswer_score_eq (q a : String) (cs : List String) (role : String) :
    (evaluateAnswerIntelligently q a cs role).score = finalScore a cs role := by
  simp only [evaluateAnswerIntelligently]
  split_ifs <;> rfl

theorem evaluateAnswer_correctness_eq (q a : String) (cs : List String) (role : String) :
    (evaluateAnswerIntelligently q a cs role).correctness
      = specCorrectnessTier ((evaluateAnswerIntelligently q a cs role).score) := by
  rw [evaluateAnswer_score_eq]
  simp only [evaluateAnswerIntelligently, specCorrectnessTier]
  split_ifs <;> rfl

/- ## C1 -/

/-- C1: for every question, answer, expected-concept list and role, the
score of evaluateAnswerIntelligently lies in [0, 100] and the correctness
tier is exactly the threshold function of the score, with the boundary
values 79/80/49/50 falling as documented. -/
theorem evaluateAnswer_score_range_and_tier (question answer : String)
    (concepts : List String) (role : String) :
    0 ≤ (evaluateAnswerIntelligently question answer concepts role).score ∧
    (evaluateAnswerIntelligently question answer concepts role).score ≤ 100 ∧
    (evaluateAnswerIntelligently question answer concepts role).correctness
      = specCorrectnessTier (evaluateAnswerIntelligently question answer concepts role).score ∧
    specCorrectnessTier 79 = "partial" ∧ specCorrectnessTier 80 = "correct" ∧
    specCorrectnessTier 49 = "incorrect" ∧ specCorrectnessTier 50 = "partial" := by
  refine ⟨?_, ?_, evaluateAnswer_correctness_eq question answer concepts role,
    by decide, by decide, by decide, by decide⟩
  · rw [evaluateAnswer_score_eq]
    exact finalScore_nonneg answer concepts role
  · rw [evaluateAnswer_score_eq]
    exact finalScore_le answer concepts role

/- ## C2 -/

/-- The answer of the spec scenario for C2. -/
def scenarioAnswer : String :=
  "The bias-variance tradeoff means... for example, high bias models underfit."

/-- The expected concepts of the spec scenario for C2. -/
def scenarioConcepts : List String := ["bias", "variance"]

/-- The question of the spec scenario for C2 (the scorer ignores it). -/
def scenarioQuestion : String :=
  "Explain the bias-variance tradeoff and how it affects model performance."

/-- C2 counterexample: in the scenario the scorer counts BOTH concepts as
mentioned, because the concept string variance is a case-insensitive
substring of bias-variance; so conceptScore is 40, not 20, and the claimed
count of exactly 1 mentioned concept is false. -/
theorem scenario_counts_two_concepts :
    (coveredConceptsOf scenarioAnswer scenarioConcepts).length = 2 ∧
    conceptScoreOf scenarioAnswer scenarioConcepts = 40 ∧
    ¬((coveredConceptsOf scenarioAnswer scenarioConcepts).length = 1 ∧
      conceptScoreOf scenarioAnswer scenarioConcepts = 20) := by
  have hc : (coveredConceptsOf scenarioAnswer scenarioConcepts).length = 2 := by decide
  have h40 : conceptScoreOf scenarioAnswer scenarioConcepts = 40 := by
    have hl : scenarioConcepts.length = 2 := by decide
    simp only [conceptScoreOf, hc, hl]
    norm_num
  exact ⟨hc, h40, fun h => absurd (hc ▸ h.1) (by norm_num)⟩

theorem scenario_depthScore : depthScoreOf scenarioAnswer = 20/3 := by
  have hw : wordCountOf scenarioAnswer = 10 := by decide
  simp only [depthScoreOf, hw]
  rw [min_def]
  norm_num

theorem scenario_finalScore : finalScore scenarioAnswer scenarioConcepts "Data Scientist" = 62 := by
  have h40 : conceptScoreOf scenarioAnswer scenarioConcepts = 40 := by
    have hc : (coveredConceptsOf scenarioAnswer scenarioConcepts).length = 2 := by decide
    have hl : scenarioConcepts.length = 2 := by decide
    simp only [conceptScoreOf, hc, hl]
    norm_num
  have htot : totalRawScore scenarioAnswer scenarioConcepts "Data Scientist" = 185/3 := by
    have hex : containsExamples scenarioAnswer = true := by decide
    have hst : hasStructure scenarioAnswer = false := by decide
    have htech : hasTechnicalTerms scenarioAnswer "Data Scientist" = false := by decide
    simp only [totalRawScore, h40, scenario_depthScore, hex, hst, htech]
    norm_num
  unfold finalScore
  rw [htot, jsRound_eq_of ((185 : ℚ)/3) 62 (by norm_num) (by norm_num)]
  decide

/-- C2 amended: in the scenario both of the 2 concepts are mentioned
(variance matches inside bias-variance), so conceptScore is (2/2) × 40 = 40;
the examples bonus 15 applies; and the total score is the capped rounded sum
40 + depth 20/3 + 15 + 0 + 0, which is 62, giving the partial tier. -/
theorem scenario_score_composition :
    (coveredConceptsOf scenarioAnswer scenarioConcepts).length = 2 ∧
    conceptScoreOf scenarioAnswer scenarioConcepts = 40 ∧
    containsExamples scenarioAnswer = true ∧
    depthScoreOf scenarioAnswer = 20/3 ∧
    (evaluateAnswerIntelligently scenarioQuestion scenarioAnswer scenarioConcepts "Data Scientist").score
      = min 100 (jsRound ((40 : ℚ) + 20/3 + 15 + 0 + 0)) ∧
    (evaluateAnswerIntelligently scenarioQuestion scenarioAnswer scenarioConcepts "Data Scientist").score = 62 ∧
    (evaluateAnswerIntelligently scenarioQuestion scenarioAnswer scenarioConcepts "Data Scientist").correctness
      = specCorrectnessTier 62 ∧
    specCorrectnessTier 62 = "partial" := by
  have hs : (evaluateAnswerIntelligently scenarioQuestion scenarioAnswer scenarioConcepts "Data Scientist").score = 62 := by
    rw [evaluateAnswer_score_eq]
    exact scenario_finalScore
  refine ⟨by decide, ?_, by decide, scenario_depthScore, ?_, hs, ?_, by decide⟩
  · have hc : (coveredConceptsOf scenarioAnswer scenarioConcepts).length = 2 := by decide
    have hl : scenarioConcepts.length = 2 := by decide
    simp only [conceptScoreOf, hc, hl]
    norm_num
  · rw [hs, jsRound_eq_of ((40 : ℚ) + 20/3 + 15 + 0 + 0) 62 (by norm_num) (by norm_num)]
    decide
  · rw [evaluateAnswer_correctness_eq, hs]

/- ## C3 -/

/-- Projections of analyzeSingleAnswerIntelligently when the effective
answer (cleanedAnswer || userAnswer) is not blank. -/
theorem analyzeSingle_not_blank (q : SessionQ) (role : String) (index : ℕ)
    (h : ¬(jsTrim (jsOr q.cleanedAnswer q.userAnswer) = "")) :
    (analyzeSingleAnswerIntelligently q role index).score
      = finalScore (jsOr q.cleanedAnswer q.userAnswer) q.expectedConcepts role ∧
    (analyzeSingleAnswerIntelligently q role index).scoreReason
      = (evaluateAnswerIntelligently q.question (jsOr q.cleanedAnswer q.userAnswer)
          q.expectedConcepts role).scoreReason := by
  simp only [analyzeSingleAnswerIntelligently]
  rw [if_neg h]
  exact ⟨evaluateAnswer_score_eq _ _ _ _, rfl⟩

/-- The question record refuting C3: its cleaned answer is empty, but the
raw answer is the filler word um, which the function falls back to. -/
def c3Question : SessionQ :=
  { question := "Explain the bias-variance tradeoff and how it affects model performance."
    userAnswer := "um", cleanedAnswer := "", expectedConcepts := ["bias"] }

theorem c3_um_finalScore : finalScore "um" ["bias"] "Data Scientist" = 1 := by
  have hc : conceptScoreOf "um" ["bias"] = 0 := by
    have h0 : (coveredConceptsOf "um" ["bias"]).length = 0 := by decide
    simp only [conceptScoreOf, h0]
    norm_num
  have hd : depthScoreOf "um" = 2/3 := by
    have hw : wordCountOf "um" = 1 := by decide
    simp only [depthScoreOf, hw]
    rw [min_def]
    norm_num
  have htot : totalRawScore "um" ["bias"] "Data Scientist" = 2/3 := by
    have hex : containsExamples "um" = false := by decide
    have hst : hasStructure "um" = false := by decide
    have htech : hasTechnicalTerms "um" "Data Scientist" = false := by decide
    simp only [totalRawScore, hc, hd, hex, hst, htech]
    norm_num
  unfold finalScore
  rw [htot, jsRound_eq_of ((2 : ℚ)/3) 1 (by norm_num) (by norm_num)]
  decide

/-- C3 counterexample: a question whose cleaned answer is empty does not get
score 0 — analyzeSingleAnswerIntelligently falls back to the raw answer, so
this record is scored 1 with an ordinary rationale, refuting the claim that
an empty cleaned answer always yields score 0 with the no-answer message. -/
theorem emptyCleaned_not_scored_zero :
    c3Question.cleanedAnswer = "" ∧
    (analyzeSingleAnswerIntelligently c3Question "Data Scientist" 0).score = 1 ∧
    ¬((analyzeSingleAnswerIntelligently c3Question "Data Scientist" 0).score = 0 ∧
      (analyzeSingleAnswerIntelligently c3Question "Data Scientist" 0).scoreReason
        = "No answer given - score 0%") := by
  have hne : ¬(jsTrim (jsOr c3Question.cleanedAnswer c3Question.userAnswer) = "") := by decide
  have hs : (analyzeSingleAnswerIntelligently c3Question "Data Scientist" 0).score = 1 := by
    rw [(analyzeSingle_not_blank c3Question "Data Scientist" 0 hne).1]
    exact c3_um_finalScore
  refine ⟨rfl, hs, fun h => ?_⟩
  rw [hs] at h
  exact absurd h.1 (by norm_num)

/-- C3 amended: when the effective answer cleanedAnswer || userAnswer is
empty or whitespace-only (the function falls back to the raw answer when the
cleaned one is empty), the analysis has score 0, tier incorrect and the
no-answer rationale, regardless of the expected concepts. -/
theorem blankAnswer_scores_zero (q : SessionQ) (role : String) (index : ℕ)
    (h : jsTrim (jsOr q.cleanedAnswer q.userAnswer) = "") :
    (analyzeSingleAnswerIntelligently q role index).score = 0 ∧
    (analyzeSingleAnswerIntelligently q role index).correctness = "incorrect" ∧
    (analyzeSingleAnswerIntelligently q role index).scoreReason = "No answer given - score 0%" := by
  simp only [analyzeSingleAnswerIntelligently, h]
  exact ⟨rfl, rfl, rfl⟩

/-- The blank record used to witness the amended C3. -/
def c3BlankQuestion : SessionQ :=
  { question := "Explain the difference between L1 and L2 regularization."
    userAnswer := "  ", cleanedAnswer := "", expectedConcepts := ["lasso", "ridge"] }

theorem blankAnswer_scores_zero_witness :
    jsTrim (jsOr c3BlankQuestion.cleanedAnswer c3BlankQuestion.userAnswer) = "" ∧
    (analyzeSingleAnswerIntelligently c3BlankQuestion "Data Scientist" 0).score = 0 ∧
    (analyzeSingleAnswerIntelligently c3BlankQuestion "Data Scientist" 0).correctness = "incorrect" ∧
    (analyzeSingleAnswerIntelligently c3BlankQuestion "Data Scientist" 0).scoreReason
      = "No answer given - score 0%" := by
  have h : jsTrim (jsOr c3BlankQuestion.cleanedAnswer c3BlankQuestion.userAnswer) = "" := by decide
  have hres := blankAnswer_scores_zero c3BlankQuestion "Data Scientist" 0 h
  exact ⟨h, hres.1, hres.2.1, hres.2.2⟩

/- ## C4 -/

/-- C4: aggregating an empty session returns the fixed empty report with
overall score 0, no per-question entries and zero tier counts, without any
division by zero (the guard fires before the mean is computed). -/
theorem evaluateInterview_empty (s : SessionData) (h : s.questions = []) :
    evaluateInterview s = getEmptyEvaluation ∧
    getEmptyEvaluation.overallScore = 0 ∧
    getEmptyEvaluation.questionAnalyses = [] ∧
    getEmptyEvaluation.stats = { correct := 0, partialCount := 0, incorrect := 0 } := by
  refine ⟨?_, rfl, rfl, rfl⟩
  simp only [evaluateInterview, h]
  rfl

theorem evaluateInterview_empty_witness :
    ({ role := "Data Scientist", questions := [] } : SessionData).questions = [] ∧
    evaluateInterview { role := "Data Scientist", questions := [] } = getEmptyEvaluation ∧
    getEmptyEvaluation.overallScore = 0 := by
  have hres := evaluateInterview_empty { role := "Data Scientist", questions := [] } rfl
  exact ⟨rfl, hres.1, hres.2.1⟩

/- ## C5 -/

/-- Whether a store operation is an import. -/
def isImport : StorageOp → Bool
  | .imp _ => true
  | _ => false

theorem saveInterview_length_le (d : HistoryRecord) (g n : String)
    (st : List HistoryRecord) :
    (saveInterview d g n st).2.length ≤ 50 := by
  simp only [saveInterview, maxHistoryItems]
  split_ifs with hgt
  · simp [List.length_take]
  · simp only [List.length_cons]
    simp only [List.length_cons, gt_iff_lt, not_lt] at hgt
    exact hgt

theorem applyOp_length_le (st : List HistoryRecord) (op : StorageOp)
    (hop : isImport op = false) (h : st.length ≤ 50) :
    (applyOp st op).length ≤ 50 := by
  cases op with
  | save d g n => exact saveInterview_length_le d g n st
  | del id =>
    unfold applyOp deleteInterview
    exact le_trans (List.length_filter_le _ _) h
  | clear => simp [applyOp, clearHistory]
  | imp p => simp [isImport] at hop

theorem applyOps_length_le : ∀ (ops : List StorageOp) (st : List HistoryRecord),
    (∀ op ∈ ops, isImport op = false) → st.length ≤ 50 → (applyOps ops st).length ≤ 50 := by
  intro ops
  induction ops with
  | nil => intro st _ h; exact h
  | cons op rest ih =>
    intro st hops h
    have h1 : (applyOp st op).length ≤ 50 :=
      applyOp_length_le st op (hops op (by simp)) h
    have h2 := ih (applyOp st op) (fun o ho => hops o (by simp [ho])) h1
    simpa [applyOps, List.foldl_cons] using h2

/-- The 51-record payload refuting the cap claim for importData. -/
def oversizedImportPayload : ExportPayload :=
  { history := some (List.replicate 51 default), exportDate := "2026-10-12", version := "1.0" }

/-- C5 counterexample: importData stores the imported list without applying
the 50-record cap, so importing a 51-record payload leaves 51 records. -/
theorem importData_breaks_cap :
    (importData (some oversizedImportPayload) []).1 = true ∧
    (importData (some oversizedImportPayload) []).2.length = 51 ∧
    ¬((importData (some oversizedImportPayload) []).2.length ≤ 50) := by
  have h : (importData (some oversizedImportPayload) []).2 = List.replicate 51 default := rfl
  refine ⟨rfl, ?_, ?_⟩
  · rw [h, List.length_replicate]
  · rw [h, List.length_replicate]
    norm_num

/-- C5 amended: after any sequence of saveInterview / deleteInterview /
clearHistory operations from a state within the cap, the history never
exceeds 50 records, and saving onto a full 50-record history keeps the new
record plus the 49 most recent, evicting the oldest; importData, however,
replaces the history with the imported list uncapped (see the
counterexample). -/
theorem historyCap_and_eviction (ops : List StorageOp) (st : List HistoryRecord) :
    ((∀ op ∈ ops, isImport op = false) → st.length ≤ 50 →
      (applyOps ops st).length ≤ 50) ∧
    (∀ (d : HistoryRecord) (g n : String), st.length = 50 →
      (saveInterview d g n st).2
        = { d with id := jsOr d.id g, savedAt := n } :: st.dropLast) := by
  constructor
  · exact fun hops h => applyOps_length_le ops st hops h
  · intro d g n hlen
    simp only [saveInterview, maxHistoryItems]
    have hgt : ({ d with id := jsOr d.id g, savedAt := n } :: st).length > 50 := by
      simp [List.length_cons, hlen]
    rw [if_pos hgt]
    rw [show (50 : ℕ) = 49 + 1 from rfl, List.take_succ_cons]
    rw [List.dropLast_eq_take, hlen]

theorem historyCap_witness :
    (applyOps [StorageOp.save default "gen" "now", StorageOp.del "x", StorageOp.clear,
       StorageOp.save default "gen2" "now2"] []).length ≤ 50 ∧
    (saveInterview default "gen" "now" (List.replicate 50 default)).2
      = { (default : HistoryRecord) with id := jsOr (default : HistoryRecord).id "gen", savedAt := "now" }
          :: (List.replicate 50 (default : HistoryRecord)).dropLast := by
  constructor
  · exact (historyCap_and_eviction _ []).1 (by intro op hop; fin_cases hop <;> rfl) (by simp)
  · exact (historyCap_and_eviction [] _).2 default "gen" "now" (by simp)

/- ## C6 -/

/-- C6 amended: the trend is 0 only while the history has at most 5 records;
from 6 records on (previousScores is non-empty as soon as a 6th score
exists) it is round(((recentAvg − previousAvg) / previousAvg) × 100), where
recentAvg averages the 5 newest scores and previousAvg averages scores 6–10
(fewer if the history is shorter than 10).  The formula is stated under a
non-zero previousAvg, since JS divides by it unguarded. -/
theorem recentTrend_formula (st : List HistoryRecord) :
    (st.length ≤ 5 → (getStats st).recentTrend = 0) ∧
    (6 ≤ st.length → previousAvgOf (st.map (fun i => i.score)) ≠ 0 →
      (getStats st).recentTrend
        = jsRound ((recentAvgOf (st.map (fun i => i.score))
            - previousAvgOf (st.map (fun i => i.score)))
            / previousAvgOf (st.map (fun i => i.score)) * 100)) := by
  constructor
  · intro h5
    have hdrop : (st.map (fun i => i.score)).drop 5 = [] := by
      apply List.drop_eq_nil_of_le
      simpa [List.length_map] using h5
    simp only [getStats]
    split_ifs with h0 hpos
    · rfl
    · exfalso
      rw [hdrop] at hpos
      simp at hpos
    · rfl
  · intro h6 hne
    simp only [getStats]
    split_ifs with h0 hpos
    · omega
    · rfl
    · exfalso
      apply hpos
      simp only [List.length_take, List.length_drop, List.length_map, gt_iff_lt]
      omega

/-- A six-record history: five scores of 100 followed by one score of 50. -/
def c6History : List HistoryRecord :=
  [{ (default : HistoryRecord) with score := 100 },
   { (default : HistoryRecord) with score := 100 },
   { (default : HistoryRecord) with score := 100 },
   { (default : HistoryRecord) with score := 100 },
   { (default : HistoryRecord) with score := 100 },
   { (default : HistoryRecord) with score := 50 }]

/-- C6 counterexample: with only 6 records (fewer than 10) the trend is
already computed — previousScores is the singleton [50], so recentTrend is
round(((100 − 50)/50) × 100) = 100, not 0 as the claim requires. -/
theorem trend_at_six_records :
    c6History.length = 6 ∧ c6History.length < 10 ∧
    (getStats c6History).recentTrend = 100 ∧
    ¬((getStats c6History).recentTrend = 0) := by
  have hscores : c6History.map (fun i => i.score) = [100, 100, 100, 100, 100, 50] := rfl
  have hra : recentAvgOf [100, 100, 100, 100, 100, 50] = 100 := by
    have ht : (([100, 100, 100, 100, 100, 50] : List ℚ).take 5) = [100, 100, 100, 100, 100] := rfl
    unfold recentAvgOf
    rw [ht]
    simp [List.sum_cons, List.sum_nil]
    norm_num
  have hpa : previousAvgOf [100, 100, 100, 100, 100, 50] = 50 := by
    have hd : ((([100, 100, 100, 100, 100, 50] : List ℚ).drop 5).take 5) = [50] := rfl
    unfold previousAvgOf
    rw [hd]
    simp [List.sum_cons, List.sum_nil]
  have hmain : (getStats c6History).recentTrend
      = jsRound ((recentAvgOf (c6History.map (fun i => i.score))
          - previousAvgOf (c6History.map (fun i => i.score)))
          / previousAvgOf (c6History.map (fun i => i.score)) * 100) := by
    simp only [getStats]
    split_ifs with h0 hpos
    · exact absurd h0 (by decide)
    · rfl
    · exact absurd (by decide) hpos
  have h100 : (getStats c6History).recentTrend = 100 := by
    rw [hmain, hscores, hra, hpa]
    rw [jsRound_eq_of ((100 - 50) / 50 * 100 : ℚ) 100 (by norm_num) (by norm_num)]
  refine ⟨rfl, by decide, h100, ?_⟩
  rw [h100]
  norm_num

theorem recentTrend_formula_witness :
    (getStats [{ (default : HistoryRecord) with score := 80 }]).recentTrend = 0 ∧
    6 ≤ c6History.length ∧
    previousAvgOf (c6History.map (fun i => i.score)) ≠ 0 ∧
    (getStats c6History).recentTrend
      = jsRound ((recentAvgOf (c6History.map (fun i => i.score))
          - previousAvgOf (c6History.map (fun i => i.score)))
          / previousAvgOf (c6History.map (fun i => i.score)) * 100) := by
  have hscores : c6History.map (fun i => i.score) = [100, 100, 100, 100, 100, 50] := rfl
  have hpa : previousAvgOf [100, 100, 100, 100, 100, 50] = 50 := by
    have hd : ((([100, 100, 100, 100, 100, 50] : List ℚ).drop 5).take 5) = [50] := rfl
    unfold previousAvgOf
    rw [hd]
    simp [List.sum_cons, List.sum_nil]
  have hne : previousAvgOf (c6History.map (fun i => i.score)) ≠ 0 := by
    rw [hscores, hpa]; norm_num
  exact ⟨(recentTrend_formula _).1 (by decide), by decide, hne,
    (recentTrend_formula c6History).2 (by decide) hne⟩

/- ## C7 -/

/-- The one-record history used by the C7 counterexample. -/
def c7Record : HistoryRecord :=
  { (default : HistoryRecord) with id := "int_1", score := 77 }

/-- C7 counterexample: deleting an id that is not present returns true (the
claim requires false); the history is left unchanged. -/
theorem deleteAbsent_returns_true :
    (deleteInterview "absent" [c7Record]).1 = true ∧
    c7Record.id ≠ "absent" ∧
    (deleteInterview "absent" [c7Record]).2 = [c7Record] ∧
    ¬((deleteInterview "absent" [c7Record]).1 = false) := by
  refine ⟨rfl, by decide, rfl, by decide⟩

/-- C7 amended: deleteInterview always returns true (false is reserved for a
storage exception, which cannot occur here); the resulting history is the
original with every record bearing the given id removed and all other
records kept in their original order; in particular an absent id leaves the
history unchanged. -/
theorem deleteInterview_filters (id : String) (st : List HistoryRecord) :
    (deleteInterview id st).1 = true ∧
    (deleteInterview id st).2 = st.filter (fun r => !(r.id == id)) ∧
    ((∀ r ∈ st, r.id ≠ id) → (deleteInterview id st).2 = st) := by
  refine ⟨rfl, rfl, fun h => ?_⟩
  unfold deleteInterview
  simp only
  apply List.filter_eq_self.mpr
  intro r hr
  simpa using h r hr

theorem deleteInterview_filters_witness :
    (deleteInterview "absent" [c7Record]).1 = true ∧
    (∀ r ∈ [c7Record], r.id ≠ "absent") ∧
    (deleteInterview "absent" [c7Record]).2 = [c7Record] := by
  refine ⟨(deleteInterview_filters "absent" [c7Record]).1, by decide, ?_⟩
  exact (deleteInterview_filters "absent" [c7Record]).2.2 (by decide)

/- ## C8 -/

/-- The evaluation used by the C8 counterexample. -/
def c8Evaluation : Report :=
  { getEmptyEvaluation with overallScore := 70, knowledgeLevel := "Advanced" }

/-- C8 counterexample: the skill vector persisted at session completion has
only the four fields technical, communication, problemSolving and
experience — extractSkills never produces a culture field, so the claimed
five-field vector is false for every persisted record. -/
theorem persistedSkills_lack_culture :
    ((saveInterviewResult c8Evaluation { role := "Data Scientist", questions := [] }
        "int_9" "2026-10-12T00:00:00Z" "Data Scientist" "mid" 0 60000
        (1/2) (1/2) (1/2) (1/2) "gen" "now" []).1).skills.map Prod.fst
      = ["technical", "communication", "problemSolving", "experience"] ∧
    ¬("culture" ∈ ((saveInterviewResult c8Evaluation { role := "Data Scientist", questions := [] }
        "int_9" "2026-10-12T00:00:00Z" "Data Scientist" "mid" 0 60000
        (1/2) (1/2) (1/2) (1/2) "gen" "now" []).1).skills.map Prod.fst) := by
  constructor
  · rfl
  · intro h
    have hkeys : ((saveInterviewResult c8Evaluation { role := "Data Scientist", questions := [] }
        "int_9" "2026-10-12T00:00:00Z" "Data Scientist" "mid" 0 60000
        (1/2) (1/2) (1/2) (1/2) "gen" "now" []).1).skills.map Prod.fst
          = ["technical", "communication", "problemSolving", "experience"] := rfl
    rw [hkeys] at h
    simp at h

/-- C8 amended: every record persisted at session completion carries the
skill vector produced by extractSkills, which has exactly the four fields
technical, communication, problemSolving and experience — each
min(100, overallScore + jitter) for its randomized jitter — and no culture
field. -/
theorem persistedSkills_shape (evaluation : Report) (sessionData : SessionData)
    (sessionId nowIso role difficulty : String) (startTime now r1 r2 r3 r4 : ℚ)
    (genId savedAt : String) (history : List HistoryRecord) :
    ((saveInterviewResult evaluation sessionData sessionId nowIso role difficulty
        startTime now r1 r2 r3 r4 genId savedAt history).1).skills
      = extractSkills evaluation r1 r2 r3 r4 ∧
    extractSkills evaluation r1 r2 r3 r4
      = [("technical", min 100 ((evaluation.overallScore : ℚ) + (r1 * 10 - 5))),
         ("communication", min 100 ((evaluation.overallScore : ℚ) + (r2 * 15 - 7))),
         ("problemSolving", min 100 ((evaluation.overallScore : ℚ) + (r3 * 10 - 5))),
         ("experience", min 100 ((evaluation.overallScore : ℚ) + (r4 * 20 - 10)))] ∧
    (extractSkills evaluation r1 r2 r3 r4).map Prod.fst
      = ["technical", "communication", "problemSolving", "experience"] ∧
    ¬("culture" ∈ (extractSkills evaluation r1 r2 r3 r4).map Prod.fst) := by
  refine ⟨rfl, rfl, rfl, ?_⟩
  intro h
  have hkeys : (extractSkills evaluation r1 r2 r3 r4).map Prod.fst
      = ["technical", "communication", "problemSolving", "experience"] := rfl
  rw [hkeys] at h
  simp at h

/- ## C9 -/

/-- C9: importing the payload serialized by exportData reproduces the
exported record list exactly — same records, ids, scores and order — and
importData reports success; the payload carries version 1.0. -/
theorem export_import_roundtrip (st : List HistoryRecord) (d : String)
    (st' : List HistoryRecord) :
    importData (some (exportData st d)) st' = (true, st) ∧
    (exportData st d).version = "1.0" ∧
    (importData (some (exportData st d)) st').2.map (fun r => r.id) = st.map (fun r => r.id) ∧
    (importData (some (exportData st d)) st').2.map (fun r => r.score) = st.map (fun r => r.score) := by
  exact ⟨rfl, rfl, rfl, rfl⟩

/- ## C10: tag-stripping invariants -/

theorem ctp_cons_ne (c : Char) (l : List Char) (h : ¬(c = '<')) :
    containsTagPair (c :: l) = containsTagPair l := by
  simp only [containsTagPair, List.dropWhile]
  have hb : (!(c == '<')) = true := by simp [h]
  rw [hb]

theorem ctp_cons_lt (l : List Char) : containsTagPair ('<' :: l) = l.contains '>' := by
  simp [containsTagPair, List.dropWhile]

theorem no_gt_ctp (l : List Char) (h : l.contains '>' = false) : containsTagPair l = false := by
  induction l with
  | nil => rfl
  | cons c rest ih =>
    simp only [List.contains_cons, Bool.or_eq_false_iff] at h
    by_cases hc : c = '<'
    · subst hc
      rw [ctp_cons_lt]
      simpa using h.2
    · rw [ctp_cons_ne c rest hc]
      exact ih (by simpa using h.2)

theorem dropThroughGt_none (l : List Char) (h : dropThroughGt l = none) :
    l.contains '>' = false := by
  induction l with
  | nil => rfl
  | cons c rest ih =>
    simp only [dropThroughGt] at h
    by_cases hc : (c == '>') = true
    · rw [if_pos hc] at h
      exact Option.noConfusion h
    · rw [if_neg hc] at h
      simp only [List.contains_cons, Bool.or_eq_false_iff]
      refine ⟨?_, ih h⟩
      exact beq_eq_false_iff_ne.mpr (fun e => hc (beq_iff_eq.mpr e.symm))

theorem stripTagsGo_no_tag : ∀ (fuel : ℕ) (l : List Char), l.length ≤ fuel →
    containsTagPair (stripTagsGo fuel l) = false := by
  intro fuel
  induction fuel with
  | zero =>
    intro l hl
    have : l = [] := List.eq_nil_of_length_eq_zero (Nat.le_zero.mp hl)
    subst this
    rfl
  | succ n ih =>
    intro l hl
    match l with
    | [] => rfl
    | c :: rest =>
      simp only [stripTagsGo]
      simp only [List.length_cons] at hl
      by_cases hc : (c == '<') = true
      · rw [if_pos hc]
        cases hg : dropThroughGt rest with
        | some rest' =>
          apply ih
          have := dropThroughGt_length rest rest' hg
          omega
        | none =>
          have hcc : c = '<' := by simpa using hc
          subst hcc
          rw [ctp_cons_lt]
          exact dropThroughGt_none rest hg
      · rw [if_neg hc]
        have hcc : ¬(c = '<') := by simpa using hc
        rw [ctp_cons_ne c _ hcc]
        exact ih rest (by omega)

theorem stripTags_no_tag (l : List Char) : containsTagPair (stripTags l) = false :=
  stripTagsGo_no_tag l.length l le_rfl

theorem contains_append_false (a b : List Char) (c : Char)
    (h : (a ++ b).contains c = false) : a.contains c = false ∧ b.contains c = false := by
  simp only [List.contains, List.elem_eq_mem, decide_eq_false_iff_not, List.mem_append, not_or] at h ⊢
  exact h

theorem ctp_append_right (a b : List Char) (h : containsTagPair (a ++ b) = false) :
    containsTagPair b = false := by
  induction a with
  | nil => exact h
  | cons c a' ih =>
    rw [List.cons_append] at h
    by_cases hc : c = '<'
    · subst hc
      rw [ctp_cons_lt] at h
      exact no_gt_ctp b (contains_append_false a' b _ h).2
    · rw [ctp_cons_ne c _ hc] at h
      exact ih h

theorem ctp_append_left (a b : List Char) (h : containsTagPair (a ++ b) = false) :
    containsTagPair a = false := by
  induction a with
  | nil => rfl
  | cons c a' ih =>
    rw [List.cons_append] at h
    by_cases hc : c = '<'
    · subst hc
      rw [ctp_cons_lt] at h
      rw [ctp_cons_lt]
      exact (contains_append_false a' b _ h).1
    · rw [ctp_cons_ne c _ hc] at h
      rw [ctp_cons_ne c _ hc]
      exact ih h

theorem ctp_trim (l : List Char) (h : containsTagPair l = false) :
    containsTagPair (jsTrimList l) = false := by
  unfold jsTrimList
  have h1 : containsTagPair (l.dropWhile jsWsChar) = false := by
    apply ctp_append_right (l.takeWhile jsWsChar)
    rw [List.takeWhile_append_dropWhile]
    exact h
  set x := l.dropWhile jsWsChar with hx
  have hsplit : x = (x.reverse.dropWhile jsWsChar).reverse ++ (x.reverse.takeWhile jsWsChar).reverse := by
    have := List.takeWhile_append_dropWhile (p := jsWsChar) (l := x.reverse)
    calc x = x.reverse.reverse := (List.reverse_reverse x).symm
    _ = (x.reverse.takeWhile jsWsChar ++ x.reverse.dropWhile jsWsChar).reverse := by rw [this]
    _ = (x.reverse.dropWhile jsWsChar).reverse ++ (x.reverse.takeWhile jsWsChar).reverse := by
          rw [List.reverse_append]
  apply ctp_append_left _ ((x.reverse.takeWhile jsWsChar).reverse)
  rw [← hsplit]
  exact h1

theorem sanitizeText_no_tag (s : String) : containsTagPair (sanitizeText s).toList = false := by
  unfold sanitizeText
  split_ifs with h
  · rfl
  · exact ctp_trim _ (stripTags_no_tag _)

/- ## C10: parse pipeline lemmas -/
theorem mapOrThrow_length (f : Json → Option MockQ) :
    ∀ (l : List Json) (out : List MockQ), mapOrThrow f l = some out → out.length = l.length := by
  intro l
  induction l with
  | nil =>
    intro out h
    simp only [mapOrThrow] at h
    injection h with h2
    rw [← h2]
    rfl
  | cons x xs ih =>
    intro out h
    simp only [mapOrThrow] at h
    cases hf : f x with
    | none => rw [hf] at h; exact Option.noConfusion h
    | some y =>
      rw [hf] at h
      cases hr : mapOrThrow f xs with
      | none => rw [hr] at h; exact Option.noConfusion h
      | some ys =>
        rw [hr] at h
        simp only [Option.map_some] at h
        injection h with h2
        rw [← h2]
        simp [ih ys hr]

theorem mapOrThrow_mem (f : Json → Option MockQ) :
    ∀ (l : List Json) (out : List MockQ), mapOrThrow f l = some out →
      ∀ y ∈ out, ∃ x ∈ l, f x = some y := by
  intro l
  induction l with
  | nil =>
    intro out h y hy
    simp only [mapOrThrow] at h
    injection h with h2
    rw [← h2] at hy
    exact absurd hy (List.not_mem_nil y)
  | cons x xs ih =>
    intro out h y hy
    simp only [mapOrThrow] at h
    cases hf : f x with
    | none => rw [hf] at h; exact Option.noConfusion h
    | some z =>
      rw [hf] at h
      cases hr : mapOrThrow f xs with
      | none => rw [hr] at h; exact Option.noConfusion h
      | some ys =>
        rw [hr] at h
        simp only [Option.map_some] at h
        injection h with h2
        rw [← h2] at hy
        rcases List.mem_cons.mp hy with hy1 | hy2
        · exact ⟨x, List.mem_cons_self x xs, by rw [hf, hy1]⟩
        · obtain ⟨x', hx', hfx'⟩ := ih ys hr y hy2
          exact ⟨x', List.mem_cons_of_mem x hx', hfx'⟩

theorem questionTextOf_no_tag (qf : Option Json) :
    containsTagPair (questionTextOf qf).toList = false := by
  unfold questionTextOf
  split
  · split_ifs
    · exact sanitizeText_no_tag _
    · exact sanitizeText_no_tag ""
  · exact sanitizeText_no_tag ""

theorem sanitizeJsonText_no_tag (v : Json) :
    containsTagPair (sanitizeJsonText v).toList = false := by
  unfold sanitizeJsonText
  split_ifs
  · exact sanitizeText_no_tag _
  · rfl

theorem conceptsListOf_no_tag (cf : Option Json) (cs : List String)
    (h : conceptsListOf cf = some cs) :
    ∀ c ∈ cs, containsTagPair c.toList = false := by
  intro c hc
  unfold conceptsListOf at h
  split at h
  · injection h with h2
    rw [← h2] at hc
    obtain ⟨x, _, hx⟩ := List.mem_map.mp hc
    rw [← hx]
    exact sanitizeJsonText_no_tag x
  · split at h
    · exact Option.noConfusion h
    · injection h with h2
      rw [← h2] at hc
      exact absurd hc (List.not_mem_nil c)
  · injection h with h2
    rw [← h2] at hc
    exact absurd hc (List.not_mem_nil c)

theorem buildParsedQuestion_sanitized (x : Json) (q : MockQ)
    (h : buildParsedQuestion x = some q) :
    containsTagPair q.question.toList = false ∧
    ∀ c ∈ q.expectedConcepts, containsTagPair c.toList = false := by
  unfold buildParsedQuestion at h
  cases hq : jsonGetField x "question" with
  | none => rw [hq] at h; exact Option.noConfusion h
  | some qf =>
    rw [hq] at h
    dsimp only at h
    cases hcf : jsonGetField x "expectedConcepts" with
    | none => rw [hcf] at h; exact Option.noConfusion h
    | some cf =>
      rw [hcf] at h
      dsimp only at h
      cases hcs : conceptsListOf cf with
      | none => rw [hcs] at h; exact Option.noConfusion h
      | some cs =>
        rw [hcs] at h
        dsimp only at h
        cases hdf : jsonGetField x "difficulty" with
        | none => rw [hdf] at h; exact Option.noConfusion h
        | some df =>
          rw [hdf] at h
          dsimp only at h
          injection h with h2
          rw [← h2]
          exact ⟨questionTextOf_no_tag qf, conceptsListOf_no_tag cf cs hcs⟩

theorem padFollowUps_length (rq : List MockQ) (count : ℕ) :
    ∀ (fuel : ℕ) (selected : List MockQ), selected.length ≤ count →
      count ≤ selected.length + fuel →
      (padFollowUps rq count fuel selected).length = count := by
  intro fuel
  induction fuel with
  | zero =>
    intro selected h1 h2
    simp only [padFollowUps]
    omega
  | succ n ih =>
    intro selected h1 h2
    simp only [padFollowUps]
    split_ifs with hlt
    · apply ih
      · simp only [List.length_append, List.length_cons, List.length_nil]
        omega
      · simp only [List.length_append, List.length_cons, List.length_nil]
        omega
    · omega

theorem getD_mem (l : List MockQ) (i : ℕ) (d : MockQ) (hi : i < l.length) :
    l.getD i d ∈ l := by
  rw [List.getD_eq_getElem?_getD, List.getElem?_eq_getElem hi]
  exact List.getElem_mem hi

theorem padFollowUps_mem (rq : List MockQ) (count : ℕ) (hrq : rq ≠ []) :
    ∀ (fuel : ℕ) (selected : List MockQ) (q : MockQ),
      q ∈ padFollowUps rq count fuel selected →
      q ∈ selected ∨ ∃ m ∈ rq, q = followUp m := by
  intro fuel
  induction fuel with
  | zero =>
    intro selected q hq
    simp only [padFollowUps] at hq
    exact Or.inl hq
  | succ n ih =>
    intro selected q hq
    simp only [padFollowUps] at hq
    split_ifs at hq with hlt
    · rcases ih _ q hq with hsel | hfu
      · rcases List.mem_append.mp hsel with hs | hone
        · exact Or.inl hs
        · refine Or.inr ⟨rq.getD (selected.length % rq.length) default, ?_, ?_⟩
          · apply getD_mem
            apply Nat.mod_lt
            exact List.length_pos.mpr hrq
          · simpa using hone
      · exact Or.inr hfu
    · exact Or.inl hq

theorem generateMockQuestions_length (role difficulty : String) (count : ℕ)
    (dk : List String) (shuffle : List MockQ → List MockQ) :
    (generateMockQuestions role difficulty count dk shuffle).length = count := by
  unfold generateMockQuestions
  apply padFollowUps_length
  · simp only [List.length_take]
    omega
  · omega

theorem mockQuestionsFor_ne_nil (role difficulty : String) :
    mockQuestionsFor role difficulty ≠ [] := by
  unfold mockQuestionsFor
  split_ifs <;> simp [dsMockQuestions, feMockQuestions, pmMockQuestions]

theorem generateMockQuestions_mem (role difficulty : String) (count : ℕ)
    (dk : List String) (shuffle : List MockQ → List MockQ)
    (hperm : (shuffle (mockQuestionsFor role difficulty)).Perm (mockQuestionsFor role difficulty)) :
    ∀ q ∈ generateMockQuestions role difficulty count dk shuffle,
      ∃ m ∈ mockQuestionsFor role difficulty, q = m ∨ q = followUp m := by
  intro q hq
  unfold generateMockQuestions at hq
  rcases padFollowUps_mem _ count (mockQuestionsFor_ne_nil role difficulty) _ _ q hq with hsel | ⟨m, hm, hfu⟩
  · have hshuf : q ∈ shuffle (mockQuestionsFor role difficulty) :=
      List.mem_of_mem_take hsel
    exact ⟨q, hperm.mem_iff.mp hshuf, Or.inl rfl⟩
  · exact ⟨m, hm, Or.inr hfu⟩

/- ## C10 concrete instances -/

/-- A response with no JSON array to parse. -/
def c10BadResponse : String := "no questions available"

/-- A response whose bracket match parses, with an HTML tag to strip. -/
def c10GoodResponse : String :=
  "[\x7b\"question\":\"Explain <b>overfitting</b> carefully\",\"expectedConcepts\":[\"regularization\"],\"difficulty\":\"mid\"\x7d]"

/-- The array parseQuestionsJson extracts from c10GoodResponse. -/
def c10ParsedJson : List Json :=
  [Json.obj [("question", Json.str "Explain overfitting carefully"),
             ("expectedConcepts", Json.arr [Json.str "regularization"]),
             ("difficulty", Json.str "mid")]]

/-- The validated, sanitized questions built from c10ParsedJson. -/
def c10ParsedOut : List MockQ :=
  [{ question := "Explain overfitting carefully", expectedConcepts := ["regularization"], difficulty := "mid" }]


theorem dsMock_difficulty : ∀ m ∈ dsMockQuestions "mid", m.difficulty = "mid" := by decide

/-- Membership shape of the Data Scientist / mid mock fallback set: every
entry has difficulty mid and is a Data Scientist mock question, possibly as
a follow-up copy. -/
theorem mockFallback_mem (count : ℕ) (shuffle : List MockQ → List MockQ)
    (hperm : (shuffle (dsMockQuestions "mid")).Perm (dsMockQuestions "mid")) :
    ∀ q ∈ generateMockQuestions "Data Scientist" "mid" count [] shuffle,
      q.difficulty = "mid" ∧
      ∃ m ∈ dsMockQuestions "mid",
        q.expectedConcepts = m.expectedConcepts ∧
        (q.question = m.question ∨ q.question = m.question ++ " (follow-up)") := by
  intro q hq
  obtain ⟨m, hm, heq⟩ :=
    generateMockQuestions_mem "Data Scientist" "mid" count [] shuffle hperm q hq
  rcases heq with h1 | h1
  · subst h1
    exact ⟨dsMock_difficulty q hm, q, hm, rfl, Or.inl rfl⟩
  · subst h1
    refine ⟨?_, m, hm, rfl, Or.inr rfl⟩
    show m.difficulty = "mid"
    exact dsMock_difficulty m hm

/-- C10: whenever the match / sanitize / JSON.parse / validate pipeline of
parseQuestions fails, the function returns (never throwing) the
generateMockQuestions set for the hard-coded role Data Scientist at
difficulty mid — count questions, each with difficulty mid and drawn from
the Data Scientist mock table (possibly as a follow-up copy) regardless of
the originally requested role and difficulty.  The failure cases are, first,
no parseable JSON array in the response (parseQuestionsJson = none: no
bracket match or a JSON.parse error), and second, a parsed array on which
the validation map throws (parsedQuestionsOf = none: a null entry, or a
truthy non-array expectedConcepts).  When the whole pipeline succeeds it
returns at most count questions whose texts and concepts contain no HTML
tag. -/
theorem parseQuestions_fallback_and_sanitized (response : String) (count : ℕ)
    (shuffle : List MockQ → List MockQ) :
    (parseQuestionsJson response = none →
      parseQuestions response count shuffle
        = generateMockQuestions "Data Scientist" "mid" count [] shuffle ∧
      (parseQuestions response count shuffle).length = count) ∧
    (parseQuestionsJson response = none →
      (shuffle (dsMockQuestions "mid")).Perm (dsMockQuestions "mid") →
      ∀ q ∈ parseQuestions response count shuffle,
        q.difficulty = "mid" ∧
        ∃ m ∈ dsMockQuestions "mid",
          q.expectedConcepts = m.expectedConcepts ∧
          (q.question = m.question ∨ q.question = m.question ++ " (follow-up)")) ∧
    (∀ (qs : List Json), parseQuestionsJson response = some qs →
      parsedQuestionsOf qs count = none →
      parseQuestions response count shuffle
        = generateMockQuestions "Data Scientist" "mid" count [] shuffle ∧
      (parseQuestions response count shuffle).length = count) ∧
    (∀ (qs : List Json), parseQuestionsJson response = some qs →
      parsedQuestionsOf qs count = none →
      (shuffle (dsMockQuestions "mid")).Perm (dsMockQuestions "mid") →
      ∀ q ∈ parseQuestions response count shuffle,
        q.difficulty = "mid" ∧
        ∃ m ∈ dsMockQuestions "mid",
          q.expectedConcepts = m.expectedConcepts ∧
          (q.question = m.question ∨ q.question = m.question ++ " (follow-up)")) ∧
    (∀ (qs : List Json) (out : List MockQ),
      parseQuestionsJson response = some qs →
      parsedQuestionsOf qs count = some out →
      parseQuestions response count shuffle = out ∧
      out.length ≤ count ∧
      ∀ q ∈ out, containsTagPair q.question.toList = false ∧
        ∀ c ∈ q.expectedConcepts, containsTagPair c.toList = false) := by
  refine ⟨?_, ?_, ?_, ?_, ?_⟩
  · intro h
    have he : parseQuestions response count shuffle
        = generateMockQuestions "Data Scientist" "mid" count [] shuffle := by
      simp only [parseQuestions, h]
    exact ⟨he, by rw [he]; exact generateMockQuestions_length _ _ _ _ _⟩
  · intro h hperm q hq
    have he : parseQuestions response count shuffle
        = generateMockQuestions "Data Scientist" "mid" count [] shuffle := by
      simp only [parseQuestions, h]
    rw [he] at hq
    exact mockFallback_mem count shuffle hperm q hq
  · intro qs hqs hnone
    have he : parseQuestions response count shuffle
        = generateMockQuestions "Data Scientist" "mid" count [] shuffle := by
      simp only [parseQuestions, hqs, hnone]
    exact ⟨he, by rw [he]; exact generateMockQuestions_length _ _ _ _ _⟩
  · intro qs hqs hnone hperm q hq
    have he : parseQuestions response count shuffle
        = generateMockQuestions "Data Scientist" "mid" count [] shuffle := by
      simp only [parseQuestions, hqs, hnone]
    rw [he] at hq
    exact mockFallback_mem count shuffle hperm q hq
  · intro qs out hqs hout
    have he : parseQuestions response count shuffle = out := by
      simp only [parseQuestions, hqs, hout]
    refine ⟨he, ?_, ?_⟩
    · have hlen := mapOrThrow_length buildParsedQuestion (qs.take count) out hout
      rw [List.length_take] at hlen
      omega
    · intro q hq
      obtain ⟨x, _, hx⟩ := mapOrThrow_mem buildParsedQuestion (qs.take count) out hout q hq
      exact buildParsedQuestion_sanitized x q hx

/-- A response whose bracket match parses as a JSON array, but on which the
validation map throws: q.question on the null entry is a TypeError in JS. -/
def c10InvalidResponse : String := "[null]"

/-- The array parseQuestionsJson extracts from c10InvalidResponse. -/
def c10InvalidJson : List Json := [Json.null]

theorem parseQuestions_fallback_witness :
    parseQuestionsJson c10BadResponse = none ∧
    parseQuestions c10BadResponse 2 id = generateMockQuestions "Data Scientist" "mid" 2 [] id ∧
    (parseQuestions c10BadResponse 2 id).length = 2 ∧
    (∀ q ∈ parseQuestions c10BadResponse 2 id, q.difficulty = "mid" ∧
      ∃ m ∈ dsMockQuestions "mid", q.expectedConcepts = m.expectedConcepts ∧
        (q.question = m.question ∨ q.question = m.question ++ " (follow-up)")) ∧
    parseQuestionsJson c10InvalidResponse = some c10InvalidJson ∧
    parsedQuestionsOf c10InvalidJson 1 = none ∧
    parseQuestions c10InvalidResponse 1 id = generateMockQuestions "Data Scientist" "mid" 1 [] id ∧
    (parseQuestions c10InvalidResponse 1 id).length = 1 ∧
    (∀ q ∈ parseQuestions c10InvalidResponse 1 id, q.difficulty = "mid" ∧
      ∃ m ∈ dsMockQuestions "mid", q.expectedConcepts = m.expectedConcepts ∧
        (q.question = m.question ∨ q.question = m.question ++ " (follow-up)")) ∧
    parseQuestions c10GoodResponse 3 id = c10ParsedOut ∧
    c10ParsedOut.length ≤ 3 ∧
    (∀ q ∈ c10ParsedOut, containsTagPair q.question.toList = false ∧
      ∀ c ∈ q.expectedConcepts, containsTagPair c.toList = false) := by
  have hbad : parseQuestionsJson c10BadResponse = none := rfl
  have hinv : parseQuestionsJson c10InvalidResponse = some c10InvalidJson := rfl
  have hinvnone : parsedQuestionsOf c10InvalidJson 1 = none := rfl
  have hgood : parseQuestionsJson c10GoodResponse = some c10ParsedJson := rfl
  have hout : parsedQuestionsOf c10ParsedJson 3 = some c10ParsedOut := rfl
  have hperm : (id (dsMockQuestions "mid")).Perm (dsMockQuestions "mid") := List.Perm.refl _
  obtain ⟨e1, e2⟩ := (parseQuestions_fallback_and_sanitized c10BadResponse 2 id).1 hbad
  have e3 := (parseQuestions_fallback_and_sanitized c10BadResponse 2 id).2.1 hbad hperm
  obtain ⟨g1, g2⟩ :=
    (parseQuestions_fallback_and_sanitized c10InvalidResponse 1 id).2.2.1 c10InvalidJson hinv hinvnone
  have g3 :=
    (parseQuestions_fallback_and_sanitized c10InvalidResponse 1 id).2.2.2.1 c10InvalidJson hinv hinvnone hperm
  obtain ⟨f1, f2, f3⟩ :=
    (parseQuestions_fallback_and_sanitized c10GoodResponse 3 id).2.2.2.2 c10ParsedJson c10ParsedOut hgood hout
  exact ⟨hbad, e1, e2, e3, hinv, hinvnone, g1, g2, g3, f1, f2, f3⟩
